import Mathlib

/-!
Shallow embedding of the NVIDIA Tegra VI channel capture engine and CSI port
controller (drivers/media/platform/tegra/camera/graph.c and
drivers/media/platform/tegra/csi/csi.h of the shield_kernel tree), together
with theorems settling the specification claims about the ring-buffer
discipline, the capture-frame error paths, gang-mode geometry, the CSI error
check, and device-tree port parsing.

Machine integers (`unsigned int`, `u32`) are modelled as `Nat` with explicit
wrap-around at `2^32` where the source can overflow; `int` values that can go
negative are modelled as `Int`.  Hardware register reads are supplied by an
oracle record `Env`; register writes that do not feed back into driver state
are not modelled.  Calls to `vb2_buffer_done` and `tegra_csi_error_recover`
are recorded in an event trace, since the claims quantify over them.
-/

namespace TegraVi

/-- `QUEUED_BUFFERS` from camera/mc_common.h: ring-buffer capacity. -/
def QUEUED_BUFFERS : Nat := 4

/-- One past the largest `u32` value. -/
def U32LIM : Nat := 2 ^ 32

/-- `unsigned int` decrement with wrap-around (`x--` on a u32). -/
def u32dec (n : Nat) : Nat := (n + (U32LIM - 1)) % U32LIM

/-- videobuf2 buffer completion states (enum vb2_buffer_state); only the
states the driver uses are listed. -/
inductive Vb2BufState where
  | queued
  | active
  | done
  | error
deriving DecidableEq, Repr

/-- `enum channel_capture_state` from camera/mc_common.h. -/
inductive CaptureState where
  | idle
  | good
  | timeout
  | error
deriving DecidableEq, Repr

/-- `enum camera_gang_mode` from csi/csi.h. -/
inductive CameraGangMode where
  | CAMERA_NO_GANG_MODE
  | CAMERA_GANG_L_R
  | CAMERA_GANG_T_B
  | CAMERA_GANG_R_L
  | CAMERA_GANG_B_T
deriving DecidableEq, Repr

/-- Observable events of the capture engine: a buffer completion handed to
videobuf2 (`vb2_buffer_done`), and a hardware recovery of one CSI port
(`tegra_csi_error_recover`, recorded with the channel port index it is
invoked for). -/
inductive Ev where
  | bufDone (vb : Nat) (state : Vb2BufState)
  | csiRecover (index : Nat)
deriving DecidableEq, Repr

/-- The fields of `struct tegra_channel` (camera/mc_common.h) that the
embedded operations read or write.  Frame buffers (`struct vb2_buffer *`)
are identified by a `Nat` id.  The fixed-size arrays indexed by ring slot or
port index are total functions on `Nat`; the source only ever indexes them
below `QUEUED_BUFFERS` resp. `TEGRA_CSI_BLOCKS`. -/
structure Chan where
  buffers : Nat → Nat
  buffer_state : Nat → Vb2BufState
  save_index : Nat
  free_index : Nat
  num_buffers : Nat
  released_bufs : Nat
  sequence : Nat
  bfirst_fstart : Bool
  capture_state : CaptureState
  syncpoint_fifo : Nat → Nat
  capture : List Nat
  kthread_capture_start : Bool
  is_streaming : Bool
  bypass : Bool
  valid_ports : Nat
  total_ports : Nat
  numlanes : Nat
  gang_mode : CameraGangMode
  format_width : Nat
  format_height : Nat
  fmtinfo_bpp : Nat
  gang_width : Nat
  gang_height : Nat
  gang_bytesperline : Nat
  gang_sizeimage : Nat
  buffer_offset : Nat → Nat
  requested_kbyteps : Int
  requested_hz : Nat

/-- Aggregated state on `struct tegra_mc_vi` touched by the channel code. -/
structure Vi where
  aggregated_kbyteps : Int

/-- Hardware / collaborator oracle: results of the register reads, sync-point
waits and subdevice calls the capture engine performs.  `wait_err i` is true
when the frame-start sync-point wait for port index `i` times out;
`done_wait_err` is the same for the `MW_ACK_DONE` wait in
`tegra_channel_capture_done`; `vi_err_read i` is the value read from
`TEGRA_VI_CSI_ERROR_STATUS` of port `i`; `csi_err i` is the value returned by
`tegra_csi_error` for port `i`; `fifo_backlog i` is whether the
`TEGRA_VI_CFG_VI_INCR_SYNCPT_ERROR` read has the `VI_CSI_PP_FRAME_START` bit
of port `i` set; `set_stream_err` is whether the subdevice `s_stream` call
fails. -/
structure Env where
  pg_mode : Bool
  wait_err : Nat → Bool
  done_wait_err : Nat → Bool
  vi_err_read : Nat → Nat
  csi_err : Nat → Nat
  fifo_backlog : Nat → Bool
  set_stream_err : Bool

/-- `tegra_channel_init_ring_buffer` (graph.c:894). -/
def tegra_channel_init_ring_buffer (c : Chan) : Chan :=
  { c with released_bufs := 0, num_buffers := 0, save_index := 0,
           free_index := 0, bfirst_fstart := false }

/-- The body of the `while (frames)` loop of `free_ring_buffers`
(graph.c:903): releases the buffer at `free_index`, forcing the completion
state to ERROR when the capture state is not GOOD or fewer than two buffers
have been released since ring init (the WAR in the source), and advances the
ring bookkeeping.  The per-buffer sequence/field/payload assignments touch
only the released vb2 buffer and are not modelled beyond the channel's
`sequence` counter; the released buffer and its completion state form the
`vb2_buffer_done` event. -/
def free_ring_buffers_body (c : Chan) : Chan × Ev :=
  let vb := c.buffers c.free_index
  let bstate : Nat → Vb2BufState :=
    if c.capture_state ≠ CaptureState.good ∨ c.released_bufs < 2 then
      fun i => if i = c.free_index then Vb2BufState.error else c.buffer_state i
    else c.buffer_state
  let st := bstate c.free_index
  let fi := c.free_index + 1
  let fi := if QUEUED_BUFFERS ≤ fi then 0 else fi
  ({ c with buffer_state := bstate, free_index := fi,
            num_buffers := u32dec c.num_buffers,
            released_bufs := (c.released_bufs + 1) % U32LIM,
            sequence := (c.sequence + 1) % U32LIM },
   Ev.bufDone vb st)

/-- `free_ring_buffers` (graph.c:903): runs the release loop `frames`
times; the events are returned in release order. -/
def free_ring_buffers (c : Chan) (frames : Nat) : Chan × List Ev :=
  match frames with
  | 0 => (c, [])
  | f + 1 =>
    let s := free_ring_buffers_body c
    let r := free_ring_buffers s.1 f
    (r.1, s.2 :: r.2)

/-- `add_buffer_to_ring` (graph.c:936): stores `vb` at `save_index` with slot
state ERROR, advances `save_index` modulo the capacity and bumps
`num_buffers`. -/
def add_buffer_to_ring (c : Chan) (vb : Nat) : Chan :=
  let bstate : Nat → Vb2BufState :=
    fun i => if i = c.save_index then Vb2BufState.error else c.buffer_state i
  let bufs : Nat → Nat := fun i => if i = c.save_index then vb else c.buffers i
  let si := c.save_index + 1
  let si := if QUEUED_BUFFERS ≤ si then 0 else si
  { c with buffer_state := bstate, buffers := bufs, save_index := si,
           num_buffers := (c.num_buffers + 1) % U32LIM }

/-- Modelled from the spec: `PREVIOUS_BUFFER_DEC_INDEX` is defined in
camera/registers.h, which is not under src/.  The source comment at
graph.c:952 ("save index decrements by 2 as 3 bufs are added in ring buffer")
and the spec's two-frame-lag design fix it at 2. -/
def PREVIOUS_BUFFER_DEC_INDEX : Int := 2

/-- `update_state_to_buffer` (graph.c:948): writes the confirmed completion
state to the slot two positions behind `save_index` (int arithmetic, wrapped
into range by adding the capacity when negative); in a degraded capture state
it also overwrites the slot at `save_index` itself. -/
def update_state_to_buffer (c : Chan) (state : Vb2BufState) : Chan :=
  let si : Int := (c.save_index : Int) - PREVIOUS_BUFFER_DEC_INDEX
  let si : Int := if si < 0 then si + (QUEUED_BUFFERS : Int) else si
  let c : Chan :=
    { c with buffer_state :=
        fun i => if i = si.toNat then state else c.buffer_state i }
  if c.capture_state ≠ CaptureState.good then
    { c with buffer_state :=
        fun i => if i = c.save_index then state else c.buffer_state i }
  else c

/-- `tegra_channel_ring_buffer` (graph.c:963), called once per
frame-start-acknowledgement: on the first frame it only sets
`bfirst_fstart`; afterwards it confirms the previous slot's state.  If the
capture state is degraded it drains the whole ring and re-initializes it;
otherwise, once `QUEUED_BUFFERS - 1` entries are outstanding, it releases
the oldest one.  The vb timestamp update is wall-clock only and is not
modelled. -/
def tegra_channel_ring_buffer (c : Chan) (vb : Nat) (state : Vb2BufState) :
    Chan × List Ev :=
  let _ := vb
  let c := if !c.bfirst_fstart then { c with bfirst_fstart := true }
           else update_state_to_buffer c state
  if c.capture_state ≠ CaptureState.good then
    let r := free_ring_buffers c c.num_buffers
    (tegra_channel_init_ring_buffer r.1, r.2)
  else if QUEUED_BUFFERS - 1 ≤ c.num_buffers then
    free_ring_buffers c 1
  else (c, [])

/-- `dequeue_buffer` (graph.c:1156): pops the head of the submission queue
and adds it to the ring (the spinlock only guards the list operations). -/
def dequeue_buffer (c : Chan) : Option Nat × Chan :=
  match c.capture with
  | [] => (none, c)
  | vb :: rest => (some vb, add_buffer_to_ring { c with capture := rest } vb)

/-! ## CSI port controller (csi/csi.h unit) -/

/-- The three per-port CSI status registers read by `tegra_csi_error`. -/
structure CsiPortRegs where
  pixel_parser_status : Nat
  cil_status : Nat
  cilx_status : Nat

/-- `tegra_csi_error` (csi.h unit, line 522): reads the pixel-parser, CIL and
CIL-extended status registers, writes each value back (write-one-to-clear),
and accumulates only the fixed uncorrectable bits into the return value.
The result is the return value together with the three write-back values in
program order. -/
def tegra_csi_error (regs : CsiPortRegs) : Nat × List Nat :=
  let val := regs.pixel_parser_status
  let err := 0 ||| (val &&& 0x4000)
  let w1 := val
  let val := regs.cil_status
  let err := err ||| (val &&& 0x02)
  let w2 := val
  let val := regs.cilx_status
  let err := err ||| (val &&& 0x00020020)
  let w3 := val
  (err, [w1, w2, w3])

/-! ## Capture-frame path (VI channel capture engine) -/

/-- `tegra_channel_error_status` (graph.c:862): ORs together, over the valid
ports, the `TEGRA_VI_CSI_ERROR_STATUS` read (which is also written back to
clear it — a register effect) and the `tegra_csi_error` return value. -/
def tegra_channel_error_status (env : Env) (c : Chan) : Nat :=
  (List.range c.valid_ports).foldl
    (fun err index => (err ||| env.vi_err_read index) ||| env.csi_err index) 0

/-- Modelled from the spec: `SYNCPT_FIFO_DEPTH` is defined in
camera/registers.h, which is not under src/; the spec describes the
sync-point FIFO debt counter without fixing the depth, and the claims do not
depend on its value.  2 is used. -/
def SYNCPT_FIFO_DEPTH : Nat := 2

/-- `tegra_channel_vi_csi_recover` (graph.c:1015): invokes
`tegra_csi_error_recover` once per valid port and records the sync-point
FIFO backlog for every port whose frame-start bit is set in the
`TEGRA_VI_CFG_VI_INCR_SYNCPT_ERROR` read (oracle `fifo_backlog`).  The pad
power, clock gating, image-def / single-shot clears, `capture_setup` re-run
and CSI stop/start are register-level only. -/
def tegra_channel_vi_csi_recover (env : Env) (c : Chan) : Chan × List Ev :=
  let evs := (List.range c.valid_ports).map Ev.csiRecover
  let fifo : Nat → Nat := fun i =>
    if i < c.valid_ports ∧ env.fifo_backlog i then SYNCPT_FIFO_DEPTH
    else c.syncpoint_fifo i
  ({ c with syncpoint_fifo := fifo }, evs)

/-- `tegra_channel_ec_recover` (graph.c:1059): `tegra_channel_capture_error`
only reads and logs per-port status registers, so the channel effect is that
of `tegra_channel_vi_csi_recover`. -/
def tegra_channel_ec_recover (env : Env) (c : Chan) : Chan × List Ev :=
  tegra_channel_vi_csi_recover env c

/-- `tegra_channel_set_stream` (graph.c:1504): no-op when `is_streaming`
already equals `on`; otherwise performs the subdevice `s_stream` call (which
may fail, oracle `set_stream_err`; the concrete error code is abstracted as
-1) and updates the atomic flag on success. -/
def tegra_channel_set_stream (env : Env) (c : Chan) (streamOn : Bool) : Int × Chan :=
  if c.is_streaming = streamOn then (0, c)
  else if env.set_stream_err then (-1, c)
  else (0, { c with is_streaming := streamOn })

/-- `tegra_channel_enable_stream` (graph.c:830): pad power, TPG start, MIPI
bias/calibration are hardware-level; in TPG mode the streaming flag is set
directly, otherwise through `tegra_channel_set_stream` whose failure aborts. -/
def tegra_channel_enable_stream (env : Env) (c : Chan) : Int × Chan :=
  if env.pg_mode then (0, { c with is_streaming := true })
  else
    let r := tegra_channel_set_stream env c true
    if r.1 < 0 then (r.1, r.2) else (0, r.2)

/-- `tegra_channel_capture_frame` (graph.c:1065).  Per-port surface address,
stride and sync-point programming are register writes; the sync-point FIFO
debt counter is decremented instead of re-arming when non-zero.  On the
first frame the streaming-enable sequence runs and its failure completes the
buffer as ERROR with capture state ERROR.  Otherwise the state is set to
GOOD, the per-port frame-start waits run in index order, and the first
timeout triggers `tegra_channel_ec_recover` and the TIMEOUT state; with no
timeout and no TPG, a non-zero aggregate error status sets the ERROR state
(the recovery call on that path is commented out in the source).  The
function always ends in `tegra_channel_ring_buffer` and returns 0 except
when the enable sequence failed. -/
def tegra_channel_capture_frame (env : Env) (c : Chan) (vb : Nat) :
    Int × Chan × List Ev :=
  let c : Chan :=
    { c with syncpoint_fifo := fun i =>
        if i < c.valid_ports ∧ c.syncpoint_fifo i ≠ 0 then
          u32dec (c.syncpoint_fifo i)
        else c.syncpoint_fifo i }
  let enable : Int × Chan :=
    if !c.bfirst_fstart then tegra_channel_enable_stream env c else (0, c)
  let err := enable.1
  let c := enable.2
  if err ≠ 0 then
    let c : Chan := { c with capture_state := CaptureState.error }
    let r := tegra_channel_ring_buffer c vb Vb2BufState.error
    (err, r.1, r.2)
  else
    let c : Chan := { c with capture_state := CaptureState.good }
    match (List.range c.valid_ports).find? env.wait_err with
    | some _ =>
      let rec_ := tegra_channel_ec_recover env c
      let c : Chan := { rec_.1 with capture_state := CaptureState.timeout }
      let r := tegra_channel_ring_buffer c vb Vb2BufState.error
      (0, r.1, rec_.2 ++ r.2)
    | none =>
      if !env.pg_mode ∧ tegra_channel_error_status env c ≠ 0 then
        let c : Chan := { c with capture_state := CaptureState.error }
        let r := tegra_channel_ring_buffer c vb Vb2BufState.error
        (0, r.1, r.2)
      else
        let r := tegra_channel_ring_buffer c vb Vb2BufState.done
        (0, r.1, r.2)

/-- `tegra_channel_capture_done` (graph.c:1176): dequeues one more buffer (if
any), arms and waits the `MW_ACK_DONE` sync-point per port (a timeout runs
recovery and sets TIMEOUT), then unconditionally sets the capture state to
IDLE before the final `tegra_channel_ring_buffer` call. -/
def tegra_channel_capture_done (env : Env) (c : Chan) : Chan × List Ev :=
  match dequeue_buffer c with
  | (none, c) => (c, [])
  | (some vb, c) =>
    let r : Chan × List Ev :=
      match (List.range c.valid_ports).find? env.done_wait_err with
      | some _ =>
        let rec_ := tegra_channel_ec_recover env c
        ({ rec_.1 with capture_state := CaptureState.timeout }, rec_.2)
      | none => (c, [])
    let state : Vb2BufState :=
      match (List.range c.valid_ports).find? env.done_wait_err with
      | some _ => Vb2BufState.error
      | none => Vb2BufState.done
    let c : Chan := { r.1 with capture_state := CaptureState.idle }
    let rb := tegra_channel_ring_buffer c vb state
    (rb.1, r.2 ++ rb.2)

/-- One iteration of the capture kthread body (graph.c:1233): if the last
`tegra_channel_capture_frame` returned an error the thread no longer
dequeues; otherwise it pops one buffer and captures a frame.  Runs at most
`fuel` iterations and stops early when the submission queue is empty (the
thread would block waiting). -/
def kthread_capture_loop (env : Env) : Nat → Int → Chan → Chan × List Ev
  | 0, _, c => (c, [])
  | fuel + 1, err, c =>
    if err ≠ 0 then (c, [])
    else
      match dequeue_buffer c with
      | (none, c) => (c, [])
      | (some vb, c) =>
        let r := tegra_channel_capture_frame env c vb
        let rest := kthread_capture_loop env fuel r.1 r.2.1
        (rest.1, r.2.2 ++ rest.2)

/-- `tegra_channel_queued_buf_done` (graph.c:1340): completes every buffer
still in the submission queue with the given terminal state and empties the
list. -/
def tegra_channel_queued_buf_done (c : Chan) (state : Vb2BufState) :
    Chan × List Ev :=
  ({ c with capture := [] }, c.capture.map (fun vb => Ev.bufDone vb state))

/-- `FRAMERATE` (graph.c:611). -/
def FRAMERATE : Nat := 30

/-- `BPP_MEM` (graph.c:612). -/
def BPP_MEM : Nat := 2

/-- `tegra_channel_update_clknbw` (graph.c:1539): recomputes the channel's
requested bandwidth and clock from the format (fixed frame rate WAR) and
folds the signed bandwidth delta into the VI aggregate; the ISO bandwidth,
latency-allowance and clock-rate calls are external. -/
def tegra_channel_update_clknbw (c : Chan) (vi : Vi) (clkOn : Bool) :
    Chan × Vi :=
  let kb : Int := (if clkOn then 1 else -1) *
    (((c.format_width * c.format_height * FRAMERATE * BPP_MEM) / 1000 : Nat) : Int)
  let hz : Nat := if clkOn then c.format_width * c.format_height * FRAMERATE else 0
  let c : Chan := { c with requested_kbyteps := kb, requested_hz := hz }
  (c, { vi with aggregated_kbyteps := vi.aggregated_kbyteps + kb })

/-- `tegra_channel_stop_streaming` (graph.c:1630).  For a non-bypass channel:
stop the capture kthread, wait for the last frame's memory-write ack when
streaming in GOOD state, drain the ring, complete all still-queued buffers
with ERROR, then stop the CSI ports (register-level).  Outside the bypass
block: subdevice stream-off and pipeline stop when not in TPG mode, and the
bandwidth de-registration when not in bypass.  MIPI bias pad disable is
hardware-only. -/
def tegra_channel_stop_streaming (env : Env) (c : Chan) (vi : Vi) :
    Chan × Vi × List Ev :=
  let is_streaming := c.is_streaming
  let r1 : Chan × List Ev :=
    if !c.bypass then
      let c : Chan := { c with kthread_capture_start := false }
      let r : Chan × List Ev :=
        if is_streaming ∧ c.capture_state = CaptureState.good then
          tegra_channel_capture_done env c
        else (c, [])
      let r2 := free_ring_buffers r.1 r.1.num_buffers
      let r3 := tegra_channel_queued_buf_done r2.1 Vb2BufState.error
      (r3.1, r.2 ++ r2.2 ++ r3.2)
    else (c, [])
  let c := r1.1
  let c := if !env.pg_mode then (tegra_channel_set_stream env c false).2 else c
  let r4 : Chan × Vi :=
    if !c.bypass then tegra_channel_update_clknbw c vi false else (c, vi)
  (r4.1, r4.2, r1.2)

/-! ## Gang-mode geometry and capture setup -/

/-- Modelled from the spec: `TEGRA_SURFACE_ALIGNMENT` is defined in
camera/registers.h, which is not under src/; the spec only requires the
offsets to be surface-aligned, and mc_common.h documents the default
stride/surface alignment as 64 bytes. -/
def TEGRA_SURFACE_ALIGNMENT : Nat := 64

/-- `gang_buffer_offsets` (graph.c:646): per gang mode, the per-port stride
(L/R by bytes-per-line, T/B by image size) is rounded up with the u32 mask
trick `(offset + A - 1) & ~(A - 1)` and multiplied by the port position. -/
def gang_buffer_offsets (c : Chan) : Chan :=
  let offsetFor : Nat → Nat := fun i =>
    let offset : Nat :=
      match c.gang_mode with
      | CameraGangMode.CAMERA_NO_GANG_MODE
      | CameraGangMode.CAMERA_GANG_L_R
      | CameraGangMode.CAMERA_GANG_R_L => c.gang_bytesperline
      | CameraGangMode.CAMERA_GANG_T_B
      | CameraGangMode.CAMERA_GANG_B_T => c.gang_sizeimage
    let offset := ((offset + TEGRA_SURFACE_ALIGNMENT - 1) % U32LIM) &&&
      (U32LIM - TEGRA_SURFACE_ALIGNMENT)
    (i * offset) % U32LIM
  { c with buffer_offset := fun i =>
      if i < c.total_ports then offsetFor i else c.buffer_offset i }

/-- `gang_mode_width` (graph.c:671): left-right gang modes halve the width
(`width >> 1`). -/
def gang_mode_width (gang_mode : CameraGangMode) (width : Nat) : Nat :=
  if gang_mode = CameraGangMode.CAMERA_GANG_L_R ∨
     gang_mode = CameraGangMode.CAMERA_GANG_R_L then width / 2
  else width

/-- `gang_mode_height` (graph.c:681): top-bottom gang modes halve the
height. -/
def gang_mode_height (gang_mode : CameraGangMode) (height : Nat) : Nat :=
  if gang_mode = CameraGangMode.CAMERA_GANG_T_B ∨
     gang_mode = CameraGangMode.CAMERA_GANG_B_T then height / 2
  else height

/-- `update_gang_mode_params` (graph.c:691). -/
def update_gang_mode_params (c : Chan) : Chan :=
  let c : Chan :=
    { c with gang_width := gang_mode_width c.gang_mode c.format_width,
             gang_height := gang_mode_height c.gang_mode c.format_height }
  let c : Chan :=
    { c with gang_bytesperline := (c.gang_width * c.fmtinfo_bpp) % U32LIM }
  let c : Chan :=
    { c with gang_sizeimage := (c.gang_bytesperline * c.format_height) % U32LIM }
  gang_buffer_offsets c

/-- Modelled from the spec: `IMAGE_SIZE_HEIGHT_OFFSET` is defined in
camera/registers.h, which is not under src/.  The image-size register packs
height in the upper and width in the lower half of the 32-bit word, so the
shift is 16. -/
def IMAGE_SIZE_HEIGHT_OFFSET : Nat := 16

/-- The value programmed into `TEGRA_VI_CSI_IMAGE_SIZE` by
`tegra_channel_capture_setup` (graph.c:823):
`(height << IMAGE_SIZE_HEIGHT_OFFSET) | width`. -/
def image_size_value (height width : Nat) : Nat :=
  ((height <<< IMAGE_SIZE_HEIGHT_OFFSET) % U32LIM) ||| width

/-- The geometry part of `tegra_channel_capture_setup` (graph.c:795): the
height/width programmed into every valid port's image-size register — the
full format height/width, replaced by the gang height/width when more than
one port is valid.  (The image-def, data-type and word-count writes don't
affect the geometry claim and carry no channel state.) -/
def tegra_channel_capture_setup_size (c : Chan) : List (Nat × Nat) :=
  let height := c.format_height
  let width := c.format_width
  let height := if 1 < c.valid_ports then c.gang_height else height
  let width := if 1 < c.valid_ports then c.gang_width else width
  (List.range c.valid_ports).map (fun index =>
    let _ := index
    (index, image_size_value height width))

/-! ## Device-tree port parsing (tegra_vi_get_port_info) -/

/-- `-EINVAL`. -/
def EINVAL : Int := 22

/-- A device-tree child node as far as `tegra_vi_get_port_info` inspects it:
its name and the optional `reg`, `csi-port` and `bus-width` u32 properties,
plus its own children (endpoints). -/
structure DtNode where
  name : String
  reg : Option Nat
  csi_port : Option Nat
  bus_width : Option Nat
  children : List DtNode

/-- The mutable channel fields `tegra_vi_get_port_info` writes:
`chan->port[]` (size `TEGRA_CSI_BLOCKS`) and `chan->numlanes`. -/
structure PortInfo where
  port : Nat → Nat
  numlanes : Nat

/-- The multi-brick fill loop of `tegra_vi_get_port_info` (graph.c:385):
`for (i = 1; value > 0; i++, value -= 4) port[i] = (port[i-1] + 2) % 6`,
entered with `value = numlanes - 4` (int). -/
def fill_extra_ports (p : PortInfo) (i : Nat) (value : Int) (fuel : Nat) :
    PortInfo :=
  match fuel with
  | 0 => p
  | fuel + 1 =>
    if 0 < value then
      let next_port := (p.port (i - 1) + 2) % 6
      let p : PortInfo :=
        { p with port := fun j => if j = i then next_port else p.port j }
      fill_extra_ports p (i + 1) (value - 4) fuel
    else p

/-- Processing of one endpoint child inside `tegra_vi_get_port_info`
(graph.c:357-390).  `value` is the running local `int value` of the source
(initialized to 0xFFFF and retained across failed property reads); the
result is either an early `-EINVAL` return (`Except.error`) or the updated
`(value, ret, chan-fields)`. -/
def process_endpoint (ep : DtNode) (value : Int) (p : PortInfo) :
    Except (Int × PortInfo) (Int × Int × PortInfo) :=
  let value : Int := match ep.csi_port with
    | some v => (v : Int)
    | none => value
  let p : PortInfo :=
    { p with port := fun j => if j = 0 then (value % 256).toNat else p.port j }
  let value : Int := match ep.bus_width with
    | some v => (v : Int)
    | none => value
  let ret : Int := match ep.bus_width with
    | some _ => 0
    | none => -EINVAL
  let p : PortInfo := { p with numlanes := (value % (U32LIM : Int)).toNat }
  if 12 < value then Except.error (-EINVAL, p)
  else
    let p := fill_extra_ports p 1 (value - 4) value.toNat
    Except.ok (value, ret, p)

/-- The endpoint loop of `tegra_vi_get_port_info`: runs over the children of
a matching port node, skipping those not named "endpoint". -/
def process_endpoints (eps : List DtNode) (value : Int) (ret : Int)
    (p : PortInfo) : Except (Int × PortInfo) (Int × Int × PortInfo) :=
  match eps with
  | [] => Except.ok (value, ret, p)
  | ep :: rest =>
    if ep.name ≠ "endpoint" then process_endpoints rest value ret p
    else
      match process_endpoint ep value p with
      | Except.error e => Except.error e
      | Except.ok (value, ret, p) => process_endpoints rest value ret p

/-- The port loop of `tegra_vi_get_port_info` (graph.c:346): skips children
not named "port", children without a `reg` property, and ports whose `reg`
differs from the requested index. -/
def process_ports (nodes : List DtNode) (index : Nat) (value : Int)
    (ret : Int) (p : PortInfo) : Int × PortInfo :=
  match nodes with
  | [] => (ret, p)
  | port :: rest =>
    if port.name ≠ "port" then process_ports rest index value ret p
    else
      match port.reg with
      | none => process_ports rest index value (-EINVAL) p
      | some reg =>
        if reg ≠ index then process_ports rest index (reg : Int) 0 p
        else
          match process_endpoints port.children (reg : Int) 0 p with
          | Except.error (e, p) => (e, p)
          | Except.ok (value, ret, p) => process_ports rest index value ret p

/-- `tegra_vi_get_port_info` (graph.c:333): walks the `ports` container (or
the node itself when absent — represented directly by the children list) for
the port with the requested index and fills `chan->port[]` / `chan->numlanes`
from its endpoints, rejecting a bus width above 12 with `-EINVAL` in the
middle of the walk. -/
def tegra_vi_get_port_info (p : PortInfo) (ports : List DtNode)
    (index : Nat) : Int × PortInfo :=
  process_ports ports index 0xFFFF 0 p

/-! ## Helper lemmas -/

theorem lor_eq_zero_iff (a b : Nat) : a ||| b = 0 ↔ a = 0 ∧ b = 0 := by
  constructor
  · intro h
    refine ⟨Nat.zero_of_testBit_eq_false (fun i => ?_),
            Nat.zero_of_testBit_eq_false (fun i => ?_)⟩ <;>
    · have := congrArg (fun x => Nat.testBit x i) h
      simp [Nat.testBit_lor] at this
      tauto
  · rintro ⟨rfl, rfl⟩
    rfl

/-- The u32 rounding mask `y & ~(64 - 1)` clears the low six bits: for
in-range `y` it equals rounding down to a multiple of 64. -/
theorem and_mask_down (y : Nat) (hy : y < 2 ^ 32) :
    y &&& (2 ^ 32 - 64) = y / 64 * 64 := by
  have hmask : (2 ^ 32 - 64 : Nat) = (2 ^ 26 - 1) <<< 6 := by
    rw [Nat.shiftLeft_eq]
    norm_num
  have h64 : y / 64 * 64 = (y >>> 6) <<< 6 := by
    rw [Nat.shiftLeft_eq, Nat.shiftRight_eq_div_pow]
  apply Nat.eq_of_testBit_eq
  intro i
  rw [Nat.testBit_and, hmask, Nat.testBit_shiftLeft, h64, Nat.testBit_shiftLeft,
    Nat.testBit_shiftRight, Nat.testBit_two_pow_sub_one]
  rcases Nat.lt_or_ge i 6 with h6 | h6
  · simp [Nat.not_le.mpr h6]
  · rcases Nat.lt_or_ge i 32 with h32 | h32
    · have hi : i - 6 < 26 := by omega
      have hadd : 6 + (i - 6) = i := by omega
      simp [h6, hi, hadd]
    · have h1 : Nat.testBit y i = false :=
        Nat.testBit_eq_false_of_lt
          (lt_of_lt_of_le hy (Nat.pow_le_pow_right (by norm_num) h32))
      have hi : ¬ (i - 6 < 26) := by omega
      have hadd : 6 + (i - 6) = i := by omega
      simp [h6, hi, hadd, h1]

/-- The low 16 bits of the packed image-size register value are the width. -/
theorem image_size_low_bits (h w : Nat) (hw : w < 2 ^ 16) :
    (((h <<< 16) % (2 ^ 32)) ||| w) % 2 ^ 16 = w := by
  have ha : ((h <<< 16) % 2 ^ 32) % 2 ^ 16 = 0 := by
    rw [Nat.shiftLeft_eq]
    omega
  calc (((h <<< 16) % 2 ^ 32) ||| w) % 2 ^ 16
      = (((h <<< 16) % 2 ^ 32) ||| w) &&& (2 ^ 16 - 1) := by
        rw [Nat.and_pow_two_sub_one_eq_mod]
    _ = (((h <<< 16) % 2 ^ 32) &&& (2 ^ 16 - 1)) ||| (w &&& (2 ^ 16 - 1)) := by
        rw [Nat.and_distrib_right]
    _ = 0 ||| w := by
        rw [Nat.and_pow_two_sub_one_eq_mod, Nat.and_pow_two_sub_one_eq_mod, ha,
          Nat.mod_eq_of_lt hw]
    _ = w := by simp

/-! ## Claim C8: the CSI error check -/

/-- C8: for every port, `tegra_csi_error` writes back exactly the values it
read from the pixel-parser, CIL and CIL-extended status registers (clearing
every reported bit), and returns non-zero if and only if at least one of the
fixed uncorrectable bits (pixel-parser 0x4000, CIL 0x02, CILX 0x00020020)
was set; all other bits do not affect the return value. -/
theorem claim_c8_csi_error (regs : CsiPortRegs) :
    (tegra_csi_error regs).2 =
      [regs.pixel_parser_status, regs.cil_status, regs.cilx_status] ∧
    ((tegra_csi_error regs).1 ≠ 0 ↔
      regs.pixel_parser_status &&& 0x4000 ≠ 0 ∨
      regs.cil_status &&& 0x02 ≠ 0 ∨
      regs.cilx_status &&& 0x00020020 ≠ 0) := by
  refine ⟨rfl, ?_⟩
  show (0 ||| (regs.pixel_parser_status &&& 0x4000) |||
        (regs.cil_status &&& 0x02) ||| (regs.cilx_status &&& 0x00020020)) ≠ 0 ↔ _
  rw [Nat.zero_or]
  rw [ne_eq, lor_eq_zero_iff, lor_eq_zero_iff]
  tauto

/-! ## Claim C9: rejection of bus-width > 12 -/

/-- A device-tree fragment with one port node carrying one endpoint. -/
def mkPortNode (index cp w : Nat) : DtNode :=
  { name := "port", reg := some index, csi_port := none, bus_width := none,
    children := [{ name := "endpoint", reg := none, csi_port := some cp,
                   bus_width := some w, children := [] }] }

/-- The channel port state before parsing in the C9 scenario. -/
def c9_chan : PortInfo := { port := fun _ => 0xFF, numlanes := 4 }

/-- C9 counterexample: parsing an endpoint with bus-width 16 (> 12) does
return `-EINVAL`, but the claim's "no partial state committed" part is false:
`chan->numlanes` has been overwritten with 16 and `chan->port[0]` with the
endpoint's csi-port before the rejection. -/
theorem claim_c9_counterexample :
    (tegra_vi_get_port_info c9_chan [mkPortNode 0 2 16] 0).1 = -EINVAL ∧
    ¬ ((tegra_vi_get_port_info c9_chan [mkPortNode 0 2 16] 0).2.numlanes =
        c9_chan.numlanes ∧
       (tegra_vi_get_port_info c9_chan [mkPortNode 0 2 16] 0).2.port 0 =
        c9_chan.port 0) := by
  constructor
  · rfl
  · intro hc
    have h1 : (tegra_vi_get_port_info c9_chan [mkPortNode 0 2 16] 0).2.numlanes
        = 16 := rfl
    rw [h1] at hc
    exact absurd hc.1 (by decide)

/-- The full evaluation of `tegra_vi_get_port_info` on a single-port,
single-endpoint fragment whose bus-width exceeds 12. -/
theorem c9_compute (p : PortInfo) (index cp w : Nat) (hw : 12 < w) :
    tegra_vi_get_port_info p [mkPortNode index cp w] index =
      (-EINVAL,
        { port := fun j => if j = 0 then ((cp : Int) % 256).toNat else p.port j,
          numlanes := ((w : Int) % (U32LIM : Int)).toNat }) := by
  have hgt : (12 : Int) < (w : Int) := by exact_mod_cast hw
  simp [tegra_vi_get_port_info, process_ports, process_endpoints,
    process_endpoint, mkPortNode, hgt]

/-- C9 amended: for every endpoint whose bus-width exceeds 12,
`tegra_vi_get_port_info` rejects the configuration synchronously with
`-EINVAL`, but partial channel state IS committed: by the time of the
rejection `chan->port[0]` has been overwritten with the endpoint's csi-port
(truncated to its u8 type) and `chan->numlanes` with the oversized
bus-width. -/
theorem claim_c9_amended (p : PortInfo) (index cp w : Nat) (hw : 12 < w) :
    (tegra_vi_get_port_info p [mkPortNode index cp w] index).1 = -EINVAL ∧
    (tegra_vi_get_port_info p [mkPortNode index cp w] index).2.numlanes =
      w % U32LIM ∧
    (tegra_vi_get_port_info p [mkPortNode index cp w] index).2.port 0 =
      cp % 256 := by
  rw [c9_compute p index cp w hw]
  refine ⟨rfl, ?_, ?_⟩
  · show ((w : Int) % (U32LIM : Int)).toNat = w % U32LIM
    simp only [U32LIM]
    omega
  · show ((cp : Int) % 256).toNat = cp % 256
    omega

/-- Witness for C9 amended at bus-width 16, csi-port 2. -/
theorem claim_c9_amended_witness :
    (tegra_vi_get_port_info c9_chan [mkPortNode 0 2 16] 0).1 = -EINVAL ∧
    (tegra_vi_get_port_info c9_chan [mkPortNode 0 2 16] 0).2.numlanes =
      16 % U32LIM ∧
    (tegra_vi_get_port_info c9_chan [mkPortNode 0 2 16] 0).2.port 0 =
      2 % 256 :=
  claim_c9_amended c9_chan 0 2 16 (by decide)

/-! ## Claim C7: gang-mode geometry -/

/-- C7: for a channel with 2 ports in left-right gang mode and negotiated
width W, `update_gang_mode_params` sets the gang width to `W >> 1`, the
width field programmed into every valid port's image-size register by the
capture setup equals `W / 2`, and `buffer_offset[1]` is `gang_bytesperline`
rounded up to the next multiple of `TEGRA_SURFACE_ALIGNMENT`. -/
theorem claim_c7_gang_geometry (c : Chan)
    (h2 : c.total_ports = 2) (hv : c.valid_ports = 2)
    (hg : c.gang_mode = CameraGangMode.CAMERA_GANG_L_R)
    (hwidth : c.format_width < 2 ^ 17)
    (hbound : c.format_width / 2 * c.fmtinfo_bpp + TEGRA_SURFACE_ALIGNMENT - 1
      < 2 ^ 32) :
    (update_gang_mode_params c).gang_width = c.format_width / 2 ∧
    (∀ pr ∈ tegra_channel_capture_setup_size (update_gang_mode_params c),
      pr.2 % 2 ^ 16 = c.format_width / 2) ∧
    (update_gang_mode_params c).buffer_offset 1 =
      ((update_gang_mode_params c).gang_bytesperline +
        TEGRA_SURFACE_ALIGNMENT - 1) / TEGRA_SURFACE_ALIGNMENT *
        TEGRA_SURFACE_ALIGNMENT := by
  have hbpl : c.format_width / 2 * c.fmtinfo_bpp < 2 ^ 32 := by
    simp only [TEGRA_SURFACE_ALIGNMENT] at hbound
    omega
  have hbplm : c.format_width / 2 * c.fmtinfo_bpp % U32LIM =
      c.format_width / 2 * c.fmtinfo_bpp := by
    simp only [U32LIM]
    exact Nat.mod_eq_of_lt hbpl
  have hgw : (update_gang_mode_params c).gang_width = c.format_width / 2 := by
    simp [update_gang_mode_params, gang_buffer_offsets, gang_mode_width, hg]
  have hgb : (update_gang_mode_params c).gang_bytesperline =
      c.format_width / 2 * c.fmtinfo_bpp := by
    simp [update_gang_mode_params, gang_buffer_offsets, gang_mode_width, hg,
      hbplm]
  refine ⟨hgw, ?_, ?_⟩
  · intro pr hpr
    have hgh : (update_gang_mode_params c).gang_height = c.format_height := by
      simp [update_gang_mode_params, gang_buffer_offsets, gang_mode_height, hg]
    have hvp : (update_gang_mode_params c).valid_ports = 2 := by
      simp [update_gang_mode_params, gang_buffer_offsets, hv]
    simp only [tegra_channel_capture_setup_size, hvp, hgw, hgh,
      List.mem_map, List.mem_range] at hpr
    obtain ⟨i, _, hi⟩ := hpr
    rw [if_pos (by norm_num), if_pos (by norm_num)] at hi
    rw [← hi]
    simp only [image_size_value]
    exact image_size_low_bits _ _ (by omega)
  · rw [hgb]
    simp only [update_gang_mode_params, gang_buffer_offsets, gang_mode_width,
      hg, h2]
    rw [if_pos (by norm_num)]
    simp only [true_or, if_true]
    rw [hbplm]
    have hy : c.format_width / 2 * c.fmtinfo_bpp + TEGRA_SURFACE_ALIGNMENT - 1
        < 2 ^ 32 := hbound
    simp only [TEGRA_SURFACE_ALIGNMENT] at hy ⊢
    have hym : (c.format_width / 2 * c.fmtinfo_bpp + 64 - 1) % U32LIM =
        c.format_width / 2 * c.fmtinfo_bpp + 64 - 1 := by
      simp only [U32LIM]
      omega
    rw [hym, show U32LIM - 64 = 2 ^ 32 - 64 from rfl, and_mask_down _ hy,
      Nat.one_mul]
    have hle : (c.format_width / 2 * c.fmtinfo_bpp + 64 - 1) / 64 * 64 <
        U32LIM := by
      simp only [U32LIM]
      have := Nat.div_mul_le_self (c.format_width / 2 * c.fmtinfo_bpp + 64 - 1) 64
      omega
    rw [Nat.mod_eq_of_lt hle]

/-- Witness for C7: a 4K (3840-wide, bpp 2) two-port left-right gang. -/
def c7_chan : Chan :=
  { buffers := fun _ => 0, buffer_state := fun _ => Vb2BufState.error,
    save_index := 0, free_index := 0, num_buffers := 0, released_bufs := 0,
    sequence := 0, bfirst_fstart := false, capture_state := CaptureState.idle,
    syncpoint_fifo := fun _ => 0, capture := [], kthread_capture_start := false,
    is_streaming := false, bypass := false, valid_ports := 2, total_ports := 2,
    numlanes := 4, gang_mode := CameraGangMode.CAMERA_GANG_L_R,
    format_width := 3840, format_height := 2160, fmtinfo_bpp := 2,
    gang_width := 0, gang_height := 0, gang_bytesperline := 0,
    gang_sizeimage := 0, buffer_offset := fun _ => 0,
    requested_kbyteps := 0, requested_hz := 0 }

theorem claim_c7_gang_geometry_witness :
    (update_gang_mode_params c7_chan).gang_width = c7_chan.format_width / 2 ∧
    (∀ pr ∈ tegra_channel_capture_setup_size (update_gang_mode_params c7_chan),
      pr.2 % 2 ^ 16 = c7_chan.format_width / 2) ∧
    (update_gang_mode_params c7_chan).buffer_offset 1 =
      ((update_gang_mode_params c7_chan).gang_bytesperline +
        TEGRA_SURFACE_ALIGNMENT - 1) / TEGRA_SURFACE_ALIGNMENT *
        TEGRA_SURFACE_ALIGNMENT :=
  claim_c7_gang_geometry c7_chan rfl rfl rfl (by decide) (by decide)

/-! ## Preservation lemmas for the ring-buffer operations -/

@[simp] theorem free_body_buffers (c : Chan) :
    (free_ring_buffers_body c).1.buffers = c.buffers := rfl

@[simp] theorem free_body_capture_state (c : Chan) :
    (free_ring_buffers_body c).1.capture_state = c.capture_state := rfl

@[simp] theorem free_body_capture (c : Chan) :
    (free_ring_buffers_body c).1.capture = c.capture := rfl

@[simp] theorem free_body_save_index (c : Chan) :
    (free_ring_buffers_body c).1.save_index = c.save_index := rfl

theorem free_body_free_index (c : Chan) :
    (free_ring_buffers_body c).1.free_index =
      if QUEUED_BUFFERS ≤ c.free_index + 1 then 0 else c.free_index + 1 := rfl

theorem free_body_event_bad (c : Chan)
    (hcs : c.capture_state ≠ CaptureState.good) :
    (free_ring_buffers_body c).2 =
      Ev.bufDone (c.buffers c.free_index) Vb2BufState.error := by
  simp [free_ring_buffers_body, hcs]

theorem free_ring_buffers_buffers (c : Chan) (f : Nat) :
    (free_ring_buffers c f).1.buffers = c.buffers := by
  induction f generalizing c with
  | zero => rfl
  | succ f ih => simp only [free_ring_buffers, ih, free_body_buffers]

theorem free_ring_buffers_capture_state (c : Chan) (f : Nat) :
    (free_ring_buffers c f).1.capture_state = c.capture_state := by
  induction f generalizing c with
  | zero => rfl
  | succ f ih => simp only [free_ring_buffers, ih, free_body_capture_state]

theorem free_ring_buffers_capture (c : Chan) (f : Nat) :
    (free_ring_buffers c f).1.capture = c.capture := by
  induction f generalizing c with
  | zero => rfl
  | succ f ih => simp only [free_ring_buffers, ih, free_body_capture]

/-- In a degraded capture state every released buffer is completed with
ERROR, and the completions walk the ring slots upward from `free_index`
(wrapping at the capacity). -/
theorem free_ring_buffers_events_bad (c : Chan) (f : Nat)
    (hcs : c.capture_state ≠ CaptureState.good)
    (hfi : c.free_index < QUEUED_BUFFERS) :
    (free_ring_buffers c f).2 =
      (List.range f).map (fun j =>
        Ev.bufDone (c.buffers ((c.free_index + j) % QUEUED_BUFFERS))
          Vb2BufState.error) := by
  induction f generalizing c with
  | zero => simp [free_ring_buffers]
  | succ f ih =>
    have hwrap : (free_ring_buffers_body c).1.free_index < QUEUED_BUFFERS := by
      rw [free_body_free_index]
      simp only [QUEUED_BUFFERS] at hfi ⊢
      split <;> omega
    have hcs' : (free_ring_buffers_body c).1.capture_state ≠
        CaptureState.good := by
      rw [free_body_capture_state]
      exact hcs
    simp only [free_ring_buffers]
    rw [ih _ hcs' hwrap, free_body_event_bad c hcs]
    rw [List.range_succ_eq_map, List.map_cons, List.map_map]
    congr 1
    · have : c.free_index % QUEUED_BUFFERS = c.free_index :=
        Nat.mod_eq_of_lt hfi
      rw [Nat.add_zero, this]
    · rw [free_body_buffers, free_body_free_index]
      apply List.map_congr_left
      intro j _
      simp only [Function.comp]
      congr 2
      simp only [QUEUED_BUFFERS] at hfi ⊢
      split <;> omega

@[simp] theorem add_buffer_to_ring_capture_state (c : Chan) (vb : Nat) :
    (add_buffer_to_ring c vb).capture_state = c.capture_state := rfl

@[simp] theorem add_buffer_to_ring_bfirst (c : Chan) (vb : Nat) :
    (add_buffer_to_ring c vb).bfirst_fstart = c.bfirst_fstart := rfl

@[simp] theorem add_buffer_to_ring_free_index (c : Chan) (vb : Nat) :
    (add_buffer_to_ring c vb).free_index = c.free_index := rfl

@[simp] theorem add_buffer_to_ring_valid_ports (c : Chan) (vb : Nat) :
    (add_buffer_to_ring c vb).valid_ports = c.valid_ports := rfl

@[simp] theorem add_buffer_to_ring_num (c : Chan) (vb : Nat) :
    (add_buffer_to_ring c vb).num_buffers = (c.num_buffers + 1) % U32LIM := rfl

theorem update_state_to_buffer_buffers (c : Chan) (st : Vb2BufState) :
    (update_state_to_buffer c st).buffers = c.buffers := by
  simp only [update_state_to_buffer]
  split <;> rfl

theorem update_state_to_buffer_capture_state (c : Chan) (st : Vb2BufState) :
    (update_state_to_buffer c st).capture_state = c.capture_state := by
  simp only [update_state_to_buffer]
  split <;> rfl

theorem update_state_to_buffer_free_index (c : Chan) (st : Vb2BufState) :
    (update_state_to_buffer c st).free_index = c.free_index := by
  simp only [update_state_to_buffer]
  split <;> rfl

theorem update_state_to_buffer_num (c : Chan) (st : Vb2BufState) :
    (update_state_to_buffer c st).num_buffers = c.num_buffers := by
  simp only [update_state_to_buffer]
  split <;> rfl

theorem update_state_to_buffer_capture (c : Chan) (st : Vb2BufState) :
    (update_state_to_buffer c st).capture = c.capture := by
  simp only [update_state_to_buffer]
  split <;> rfl

/-! ## One capture-kthread iteration -/

/-- One iteration of the capture kthread after a successful wake-up with an
empty error flag: dequeue one submitted buffer and capture a frame on it. -/
def kthread_it (env : Env) (c : Chan) : Int × Chan × List Ev :=
  match dequeue_buffer c with
  | (none, c) => (0, c, [])
  | (some vb, c) => tegra_channel_capture_frame env c vb

@[simp] theorem add_buffer_to_ring_buffers (c : Chan) (vb : Nat) :
    (add_buffer_to_ring c vb).buffers =
      fun i => if i = c.save_index then vb else c.buffers i := rfl

@[simp] theorem add_buffer_to_ring_capture (c : Chan) (vb : Nat) :
    (add_buffer_to_ring c vb).capture = c.capture := rfl

/-- Extracts the port index of a `tegra_csi_error_recover` invocation. -/
def evRecover : Ev → Option Nat
  | Ev.csiRecover i => some i
  | Ev.bufDone _ _ => none

theorem filterMap_evRecover_bufDone (l : List Nat) (f : Nat → Nat)
    (st : Vb2BufState) :
    (l.map (fun j => Ev.bufDone (f j) st)).filterMap evRecover = [] := by
  induction l with
  | nil => rfl
  | cons x xs ih => simp [evRecover, ih]

theorem filterMap_evRecover_csiRecover (l : List Nat) :
    (l.map Ev.csiRecover).filterMap evRecover = l := by
  induction l with
  | nil => rfl
  | cons x xs ih => simp [evRecover, ih]

/-- The timeout path of `tegra_channel_capture_frame` past the first frame:
when some valid port's frame-start wait fails, the function returns 0, the
capture state ends TIMEOUT, and the event trace is one hardware recovery per
valid port followed by the ERROR-completion of every outstanding ring
entry. -/
theorem capture_frame_timeout (env : Env) (c : Chan) (vb : Nat)
    (hb : c.bfirst_fstart = true)
    (hfi : c.free_index < QUEUED_BUFFERS)
    (hw : ∃ i, i < c.valid_ports ∧ env.wait_err i = true) :
    (tegra_channel_capture_frame env c vb).1 = 0 ∧
    (tegra_channel_capture_frame env c vb).2.1.capture_state =
      CaptureState.timeout ∧
    (tegra_channel_capture_frame env c vb).2.2 =
      (List.range c.valid_ports).map Ev.csiRecover ++
      (List.range c.num_buffers).map (fun j =>
        Ev.bufDone (c.buffers ((c.free_index + j) % QUEUED_BUFFERS))
          Vb2BufState.error) := by
  have hfind : ((List.range c.valid_ports).find? env.wait_err).isSome := by
    rw [List.find?_isSome]
    obtain ⟨i, hi, hie⟩ := hw
    exact ⟨i, List.mem_range.mpr hi, hie⟩
  obtain ⟨i0, hi0⟩ : ∃ i0, (List.range c.valid_ports).find? env.wait_err =
      some i0 := Option.isSome_iff_exists.mp hfind
  simp only [tegra_channel_capture_frame, hb, Bool.not_true, Bool.false_eq_true,
    if_false]
  rw [if_neg (show ¬((0 : Int) ≠ 0) by simp)]
  simp only [tegra_channel_ec_recover, tegra_channel_vi_csi_recover, hi0]
  simp only [tegra_channel_ring_buffer, hb, Bool.not_true, Bool.false_eq_true,
    if_false]
  rw [if_pos (show (update_state_to_buffer _ Vb2BufState.error).capture_state
    ≠ CaptureState.good by rw [update_state_to_buffer_capture_state]; simp)]
  refine ⟨trivial, ?_, ?_⟩
  · simp only [tegra_channel_init_ring_buffer, free_ring_buffers_capture_state,
      update_state_to_buffer_capture_state]
  · rw [free_ring_buffers_events_bad _ _
      (by rw [update_state_to_buffer_capture_state]; simp) (by
        rw [update_state_to_buffer_free_index]; exact hfi)]
    rw [update_state_to_buffer_num, update_state_to_buffer_buffers,
      update_state_to_buffer_free_index]

/-- The post-capture error path of `tegra_channel_capture_frame` past the
first frame: no wait timed out but the aggregate error status is non-zero
(non-TPG): the function returns 0, the capture state ends ERROR, and the
event trace consists only of buffer completions (no recovery), ERROR for
every outstanding ring entry. -/
theorem capture_frame_error (env : Env) (c : Chan) (vb : Nat)
    (hb : c.bfirst_fstart = true)
    (hfi : c.free_index < QUEUED_BUFFERS)
    (hpg : env.pg_mode = false)
    (hw : ∀ i, i < c.valid_ports → env.wait_err i = false)
    (herr : tegra_channel_error_status env c ≠ 0) :
    (tegra_channel_capture_frame env c vb).1 = 0 ∧
    (tegra_channel_capture_frame env c vb).2.1.capture_state =
      CaptureState.error ∧
    (tegra_channel_capture_frame env c vb).2.2 =
      (List.range c.num_buffers).map (fun j =>
        Ev.bufDone (c.buffers ((c.free_index + j) % QUEUED_BUFFERS))
          Vb2BufState.error) := by
  have hfind : (List.range c.valid_ports).find? env.wait_err = none := by
    rw [List.find?_eq_none]
    intro i hi
    simp [hw i (List.mem_range.mp hi)]
  simp only [tegra_channel_capture_frame, hb, Bool.not_true, Bool.false_eq_true,
    if_false]
  rw [if_neg (show ¬((0 : Int) ≠ 0) by simp)]
  simp only [hfind, hpg, Bool.not_false, true_and]
  simp only [tegra_channel_error_status] at herr ⊢
  rw [if_pos herr]
  simp only [tegra_channel_ring_buffer, hb, Bool.not_true, Bool.false_eq_true,
    if_false]
  rw [if_pos (show (update_state_to_buffer _ Vb2BufState.error).capture_state
    ≠ CaptureState.good by rw [update_state_to_buffer_capture_state]; simp)]
  refine ⟨trivial, ?_, ?_⟩
  · simp only [tegra_channel_init_ring_buffer, free_ring_buffers_capture_state,
      update_state_to_buffer_capture_state]
  · rw [free_ring_buffers_events_bad _ _
      (by rw [update_state_to_buffer_capture_state]; simp) (by
        rw [update_state_to_buffer_free_index]; exact hfi)]
    rw [update_state_to_buffer_num, update_state_to_buffer_buffers,
      update_state_to_buffer_free_index]

/-! ## Claims C2 and C3: timeout and post-capture error handling -/

/-- C2: when the per-port sync-point wait in `tegra_channel_capture_frame`
times out on a channel in GOOD capture state (mid-stream, ring-consistent),
the capture state becomes CAPTURE_TIMEOUT, `tegra_csi_error_recover` is
invoked exactly once per valid port (in port order), and the in-flight
buffer is completed with ERROR state. -/
theorem claim_c2_timeout_recovery (env : Env) (c : Chan) (vb : Nat)
    (rest : List Nat)
    (hq : c.capture = vb :: rest)
    (hb : c.bfirst_fstart = true)
    (hcs : c.capture_state = CaptureState.good)
    (hfi : c.free_index < QUEUED_BUFFERS)
    (hsi : c.save_index = (c.free_index + c.num_buffers) % QUEUED_BUFFERS)
    (hn : c.num_buffers ≤ 2)
    (hw : ∃ i, i < c.valid_ports ∧ env.wait_err i = true) :
    (kthread_it env c).2.1.capture_state = CaptureState.timeout ∧
    (kthread_it env c).2.2.filterMap evRecover = List.range c.valid_ports ∧
    Ev.bufDone vb Vb2BufState.error ∈ (kthread_it env c).2.2 := by
  have hstep : kthread_it env c =
      tegra_channel_capture_frame env
        (add_buffer_to_ring { c with capture := rest } vb) vb := by
    simp [kthread_it, dequeue_buffer, hq]
  obtain ⟨h1, h2, h3⟩ := capture_frame_timeout env
    (add_buffer_to_ring { c with capture := rest } vb) vb
    (by simp [hb]) (by simpa using hfi) (by simpa using hw)
  rw [hstep]
  refine ⟨h2, ?_, ?_⟩
  · rw [h3, List.filterMap_append, filterMap_evRecover_csiRecover,
      filterMap_evRecover_bufDone]
    simp
  · rw [h3]
    apply List.mem_append_right
    apply List.mem_map.mpr
    refine ⟨c.num_buffers, ?_, ?_⟩
    · apply List.mem_range.mpr
      have hnum : (add_buffer_to_ring { c with capture := rest } vb).num_buffers
          = c.num_buffers + 1 := by
        simp only [add_buffer_to_ring_num, U32LIM]
        omega
      rw [hnum]
      omega
    · have hslot : ((add_buffer_to_ring { c with capture := rest } vb).free_index
          + c.num_buffers) % QUEUED_BUFFERS = c.save_index := by
        simp only [add_buffer_to_ring_free_index]
        exact hsi.symm
      rw [hslot]
      simp

/-- C3: when the post-capture error-status check reports a non-zero aggregate
error (non-TPG, no timeout) on a mid-stream ring-consistent channel, the
in-flight buffer is completed with ERROR, the capture state becomes
CAPTURE_ERROR, and no `tegra_csi_error_recover` invocation happens on that
path (the recovery call is commented out in the source). -/
theorem claim_c3_error_no_recovery (env : Env) (c : Chan) (vb : Nat)
    (rest : List Nat)
    (hq : c.capture = vb :: rest)
    (hb : c.bfirst_fstart = true)
    (hcs : c.capture_state = CaptureState.good)
    (hfi : c.free_index < QUEUED_BUFFERS)
    (hsi : c.save_index = (c.free_index + c.num_buffers) % QUEUED_BUFFERS)
    (hn : c.num_buffers ≤ 2)
    (hpg : env.pg_mode = false)
    (hw : ∀ i, i < c.valid_ports → env.wait_err i = false)
    (herr : tegra_channel_error_status env c ≠ 0) :
    (kthread_it env c).2.1.capture_state = CaptureState.error ∧
    (kthread_it env c).2.2.filterMap evRecover = [] ∧
    Ev.bufDone vb Vb2BufState.error ∈ (kthread_it env c).2.2 := by
  have hstep : kthread_it env c =
      tegra_channel_capture_frame env
        (add_buffer_to_ring { c with capture := rest } vb) vb := by
    simp [kthread_it, dequeue_buffer, hq]
  have herr1 : tegra_channel_error_status env
      (add_buffer_to_ring { c with capture := rest } vb) ≠ 0 := by
    simpa [tegra_channel_error_status] using herr
  obtain ⟨h1, h2, h3⟩ := capture_frame_error env
    (add_buffer_to_ring { c with capture := rest } vb) vb
    (by simp [hb]) (by simpa using hfi) hpg (by simpa using hw) herr1
  rw [hstep]
  refine ⟨h2, ?_, ?_⟩
  · rw [h3, filterMap_evRecover_bufDone]
  · rw [h3]
    apply List.mem_map.mpr
    refine ⟨c.num_buffers, ?_, ?_⟩
    · apply List.mem_range.mpr
      have hnum : (add_buffer_to_ring { c with capture := rest } vb).num_buffers
          = c.num_buffers + 1 := by
        simp only [add_buffer_to_ring_num, U32LIM]
        omega
      rw [hnum]
      omega
    · have hslot : ((add_buffer_to_ring { c with capture := rest } vb).free_index
          + c.num_buffers) % QUEUED_BUFFERS = c.save_index := by
        simp only [add_buffer_to_ring_free_index]
        exact hsi.symm
      rw [hslot]
      simp

/-- A mid-stream single-port channel in GOOD state with one submitted
buffer (id 7) and an empty ring, used as witness input. -/
def streamChan : Chan :=
  { buffers := fun _ => 0, buffer_state := fun _ => Vb2BufState.error,
    save_index := 0, free_index := 0, num_buffers := 0, released_bufs := 0,
    sequence := 0, bfirst_fstart := true, capture_state := CaptureState.good,
    syncpoint_fifo := fun _ => 0, capture := [7], kthread_capture_start := true,
    is_streaming := true, bypass := false, valid_ports := 1, total_ports := 1,
    numlanes := 2, gang_mode := CameraGangMode.CAMERA_NO_GANG_MODE,
    format_width := 1280, format_height := 720, fmtinfo_bpp := 2,
    gang_width := 0, gang_height := 0, gang_bytesperline := 0,
    gang_sizeimage := 0, buffer_offset := fun _ => 0,
    requested_kbyteps := 0, requested_hz := 0 }

/-- Hardware oracle where every frame-start wait times out. -/
def envTimeout : Env :=
  { pg_mode := false, wait_err := fun _ => true, done_wait_err := fun _ => false,
    vi_err_read := fun _ => 0, csi_err := fun _ => 0,
    fifo_backlog := fun _ => false, set_stream_err := false }

/-- Hardware oracle with no timeout but the single-bit-corrected CRC error
status bit 0x4000 set on the VI error-status register of port 0. -/
def envErrStatus : Env :=
  { pg_mode := false, wait_err := fun _ => false, done_wait_err := fun _ => false,
    vi_err_read := fun _ => 0x4000, csi_err := fun _ => 0,
    fifo_backlog := fun _ => false, set_stream_err := false }

theorem claim_c2_timeout_recovery_witness :
    (kthread_it envTimeout streamChan).2.1.capture_state =
      CaptureState.timeout ∧
    (kthread_it envTimeout streamChan).2.2.filterMap evRecover =
      List.range streamChan.valid_ports ∧
    Ev.bufDone 7 Vb2BufState.error ∈ (kthread_it envTimeout streamChan).2.2 :=
  claim_c2_timeout_recovery envTimeout streamChan 7 [] rfl rfl rfl
    (by decide) (by decide) (by decide) ⟨0, by decide, rfl⟩

theorem claim_c3_error_no_recovery_witness :
    (kthread_it envErrStatus streamChan).2.1.capture_state =
      CaptureState.error ∧
    (kthread_it envErrStatus streamChan).2.2.filterMap evRecover = [] ∧
    Ev.bufDone 7 Vb2BufState.error ∈ (kthread_it envErrStatus streamChan).2.2 :=
  claim_c3_error_no_recovery envErrStatus streamChan 7 [] rfl rfl rfl
    (by decide) (by decide) (by decide) rfl (fun i _ => rfl) (by decide)

/-! ## Claim C4: ring-buffer capacity invariant -/

/-- The ring bookkeeping fields: `(num_buffers, save_index, free_index)`. -/
def ringOf (c : Chan) : Nat × Nat × Nat :=
  (c.num_buffers, c.save_index, c.free_index)

/-- The resting-state ring invariant maintained by the capture engine: at
most `QUEUED_BUFFERS - 2` outstanding entries between loop iterations, and
both ring indices in range. -/
def RingInv (c : Chan) : Prop :=
  c.num_buffers ≤ QUEUED_BUFFERS - 2 ∧ c.save_index < QUEUED_BUFFERS ∧
  c.free_index < QUEUED_BUFFERS

/-- The transient pre-state of `tegra_channel_ring_buffer`, right after the
current frame's buffer was added to the ring. -/
def RingPre (c : Chan) : Prop :=
  c.num_buffers ≤ QUEUED_BUFFERS - 1 ∧ c.save_index < QUEUED_BUFFERS ∧
  c.free_index < QUEUED_BUFFERS

theorem ringOf_enable_stream (env : Env) (c : Chan) :
    ringOf (tegra_channel_enable_stream env c).2 = ringOf c := by
  cases hpg : env.pg_mode <;> cases hst : c.is_streaming <;>
    cases herr : env.set_stream_err <;>
    simp [tegra_channel_enable_stream, tegra_channel_set_stream, hpg, hst,
      herr, ringOf]

theorem ringOf_ec_recover (env : Env) (c : Chan) :
    ringOf (tegra_channel_ec_recover env c).1 = ringOf c := rfl

theorem ringOf_update_state (c : Chan) (st : Vb2BufState) :
    ringOf (update_state_to_buffer c st) = ringOf c := by
  simp only [update_state_to_buffer]
  split <;> rfl

theorem free_ring_buffers_num (c : Chan) (f : Nat)
    (hf : f ≤ c.num_buffers) (hlim : c.num_buffers < U32LIM) :
    (free_ring_buffers c f).1.num_buffers = c.num_buffers - f := by
  induction f generalizing c with
  | zero => rfl
  | succ f ih =>
    have hb : (free_ring_buffers_body c).1.num_buffers = c.num_buffers - 1 := by
      show u32dec c.num_buffers = c.num_buffers - 1
      simp only [u32dec, U32LIM] at hlim ⊢
      omega
    simp only [free_ring_buffers]
    rw [ih]
    · rw [hb]
      omega
    · rw [hb]
      omega
    · rw [hb]
      simp only [U32LIM] at hlim ⊢
      omega

theorem free_ring_buffers_save_index (c : Chan) (f : Nat) :
    (free_ring_buffers c f).1.save_index = c.save_index := by
  induction f generalizing c with
  | zero => rfl
  | succ f ih => simp only [free_ring_buffers, ih, free_body_save_index]

theorem free_ring_buffers_free_lt (c : Chan) (f : Nat)
    (hfi : c.free_index < QUEUED_BUFFERS) :
    (free_ring_buffers c f).1.free_index < QUEUED_BUFFERS := by
  induction f generalizing c with
  | zero => exact hfi
  | succ f ih =>
    simp only [free_ring_buffers]
    apply ih
    rw [free_body_free_index]
    simp only [QUEUED_BUFFERS] at hfi ⊢
    split <;> omega

theorem update_state_to_buffer_save_index (c : Chan) (st : Vb2BufState) :
    (update_state_to_buffer c st).save_index = c.save_index := by
  simp only [update_state_to_buffer]
  split <;> rfl

/-- `tegra_channel_ring_buffer` restores the resting invariant from the
post-add transient state. -/
theorem ring_buffer_inv (c : Chan) (vb : Nat) (st : Vb2BufState)
    (h : RingPre c) : RingInv (tegra_channel_ring_buffer c vb st).1 := by
  obtain ⟨hn, hs, hf⟩ := h
  have key : ∀ c1 : Chan, RingPre c1 → RingInv
      ((if c1.capture_state ≠ CaptureState.good then
          (tegra_channel_init_ring_buffer
            (free_ring_buffers c1 c1.num_buffers).1,
           (free_ring_buffers c1 c1.num_buffers).2)
        else if QUEUED_BUFFERS - 1 ≤ c1.num_buffers then
          free_ring_buffers c1 1
        else (c1, [])).1) := by
    intro c1 h1
    obtain ⟨hn1, hs1, hf1⟩ := h1
    have hlim1 : c1.num_buffers < U32LIM := by
      simp only [QUEUED_BUFFERS] at hn1
      simp only [U32LIM]
      omega
    split
    · exact ⟨by simp [tegra_channel_init_ring_buffer, QUEUED_BUFFERS],
        by simp [tegra_channel_init_ring_buffer, QUEUED_BUFFERS],
        by simp [tegra_channel_init_ring_buffer, QUEUED_BUFFERS]⟩
    · split
      · refine ⟨?_, ?_, ?_⟩
        · rw [free_ring_buffers_num c1 1 (by
            simp only [QUEUED_BUFFERS] at *; omega) hlim1]
          simp only [QUEUED_BUFFERS] at *
          omega
        · rw [free_ring_buffers_save_index]
          exact hs1
        · exact free_ring_buffers_free_lt _ _ hf1
      · refine ⟨?_, hs1, hf1⟩
        simp only [QUEUED_BUFFERS] at *
        omega
  simp only [tegra_channel_ring_buffer]
  apply key
  split
  · exact ⟨hn, hs, hf⟩
  · exact ⟨by rw [update_state_to_buffer_num]; exact hn,
      by rw [update_state_to_buffer_save_index]; exact hs,
      by rw [update_state_to_buffer_free_index]; exact hf⟩

/-- `tegra_channel_capture_frame` preserves the resting ring invariant from
the post-add transient state: every path ends in
`tegra_channel_ring_buffer`. -/
theorem capture_frame_inv (env : Env) (c : Chan) (vb : Nat)
    (h : RingPre c) : RingInv (tegra_channel_capture_frame env c vb).2.1 := by
  obtain ⟨hn, hs, hf⟩ := h
  simp only [tegra_channel_capture_frame]
  have hpre : ∀ c' : Chan, ringOf c' = ringOf c → RingPre c' := by
    intro c' hr
    refine ⟨?_, ?_, ?_⟩
    · rw [show c'.num_buffers = c.num_buffers from congrArg Prod.fst hr]
      exact hn
    · rw [show c'.save_index = c.save_index from congrArg (fun p => p.2.1) hr]
      exact hs
    · rw [show c'.free_index = c.free_index from congrArg (fun p => p.2.2) hr]
      exact hf
  have hc2 : ringOf (tegra_channel_enable_stream env
      { c with syncpoint_fifo := fun i =>
          if i < c.valid_ports ∧ c.syncpoint_fifo i ≠ 0 then
            u32dec (c.syncpoint_fifo i)
          else c.syncpoint_fifo i }).2 = ringOf c := by
    rw [ringOf_enable_stream]
    simp [ringOf]
  repeat' split
  all_goals
    first
      | exact absurd rfl (by assumption)
      | (refine ring_buffer_inv _ vb _ (hpre _ ?_)
         first
           | rfl
           | exact hc2)

@[simp] theorem add_buffer_to_ring_save (c : Chan) (vb : Nat) :
    (add_buffer_to_ring c vb).save_index =
      if QUEUED_BUFFERS ≤ c.save_index + 1 then 0 else c.save_index + 1 := rfl

/-- `RingInv` only looks at the three ring bookkeeping fields. -/
theorem ring_inv_of_eq {c c' : Chan} (he : ringOf c' = ringOf c)
    (h : RingInv c) : RingInv c' := by
  obtain ⟨hn, hs, hf⟩ := h
  refine ⟨?_, ?_, ?_⟩
  · rw [show c'.num_buffers = c.num_buffers from congrArg Prod.fst he]
    exact hn
  · rw [show c'.save_index = c.save_index from congrArg (fun p => p.2.1) he]
    exact hs
  · rw [show c'.free_index = c.free_index from congrArg (fun p => p.2.2) he]
    exact hf

theorem add_ring_pre (c : Chan) (vb : Nat) (rest : List Nat) (h : RingInv c) :
    RingPre (add_buffer_to_ring { c with capture := rest } vb) := by
  obtain ⟨hn, hs, hf⟩ := h
  refine ⟨?_, ?_, ?_⟩
  · show (c.num_buffers + 1) % U32LIM ≤ QUEUED_BUFFERS - 1
    simp only [QUEUED_BUFFERS, U32LIM] at *
    omega
  · show (if QUEUED_BUFFERS ≤ c.save_index + 1 then 0 else c.save_index + 1) <
      QUEUED_BUFFERS
    simp only [QUEUED_BUFFERS] at *
    split <;> omega
  · exact hf

/-- One kthread iteration preserves the resting ring invariant. -/
theorem kthread_it_inv (env : Env) (c : Chan) (h : RingInv c) :
    RingInv (kthread_it env c).2.1 := by
  cases hq : c.capture with
  | nil =>
    have : (kthread_it env c).2.1 = c := by
      simp [kthread_it, dequeue_buffer, hq]
    rw [this]
    exact h
  | cons vb rest =>
    have hstep : kthread_it env c =
        tegra_channel_capture_frame env
          (add_buffer_to_ring { c with capture := rest } vb) vb := by
      simp [kthread_it, dequeue_buffer, hq]
    rw [hstep]
    exact capture_frame_inv env _ vb (add_ring_pre c vb rest h)

/-- `tegra_channel_capture_done` preserves the resting ring invariant. -/
theorem capture_done_inv (env : Env) (c : Chan) (h : RingInv c) :
    RingInv (tegra_channel_capture_done env c).1 := by
  cases hq : c.capture with
  | nil =>
    have : (tegra_channel_capture_done env c).1 = c := by
      simp [tegra_channel_capture_done, dequeue_buffer, hq]
    rw [this]
    exact h
  | cons vb rest =>
    have hp := add_ring_pre c vb rest h
    simp only [tegra_channel_capture_done, dequeue_buffer, hq]
    repeat' split
    all_goals exact ring_buffer_inv _ vb _ hp

theorem ringOf_set_stream (env : Env) (c : Chan) (b : Bool) :
    ringOf (tegra_channel_set_stream env c b).2 = ringOf c := by
  unfold tegra_channel_set_stream
  split
  · rfl
  · split <;> rfl

theorem ringOf_queued_buf_done (c : Chan) (st : Vb2BufState) :
    ringOf (tegra_channel_queued_buf_done c st).1 = ringOf c := rfl

theorem ringOf_update_clknbw (c : Chan) (vi : Vi) (b : Bool) :
    ringOf (tegra_channel_update_clknbw c vi b).1 = ringOf c := rfl

/-- `tegra_channel_stop_streaming` preserves the resting ring invariant
(after the drain the ring is empty, which is stronger). -/
theorem stop_streaming_inv (env : Env) (c : Chan) (vi : Vi) (h : RingInv c) :
    RingInv (tegra_channel_stop_streaming env c vi).1 := by
  simp only [tegra_channel_stop_streaming]
  have step1 : ∀ c2 : Chan, RingInv c2 →
      RingInv (tegra_channel_queued_buf_done
        (free_ring_buffers c2 c2.num_buffers).1 Vb2BufState.error).1 := by
    intro c2 h2
    obtain ⟨hn2, hs2, hf2⟩ := h2
    apply ring_inv_of_eq (ringOf_queued_buf_done _ _)
    refine ⟨?_, ?_, ?_⟩
    · rw [free_ring_buffers_num c2 c2.num_buffers le_rfl (by
        simp only [QUEUED_BUFFERS, U32LIM] at *
        omega)]
      simp only [QUEUED_BUFFERS]
      omega
    · rw [free_ring_buffers_save_index]
      exact hs2
    · exact free_ring_buffers_free_lt _ _ hf2
  have tail : ∀ c1 : Chan, RingInv c1 → RingInv
      ((if !(if !env.pg_mode then
              (tegra_channel_set_stream env c1 false).2 else c1).bypass then
          tegra_channel_update_clknbw
            (if !env.pg_mode then
              (tegra_channel_set_stream env c1 false).2 else c1) vi false
        else
          ((if !env.pg_mode then
              (tegra_channel_set_stream env c1 false).2 else c1), vi)).1) := by
    intro c1 h1
    by_cases hpg : env.pg_mode
    · simp only [hpg, Bool.not_true, Bool.false_eq_true, if_false]
      split
      · exact ring_inv_of_eq (ringOf_update_clknbw _ _ _) h1
      · exact h1
    · simp only [Bool.not_eq_true] at hpg
      simp only [hpg, Bool.not_false, if_true]
      split
      · exact ring_inv_of_eq (ringOf_update_clknbw _ _ _)
          (ring_inv_of_eq (ringOf_set_stream _ _ _) h1)
      · exact ring_inv_of_eq (ringOf_set_stream _ _ _) h1
  by_cases hby : c.bypass = true
  · simp only [hby, Bool.not_true, Bool.false_eq_true, if_false]
    exact tail _ h
  · have hby' : c.bypass = false := by simpa using hby
    simp only [hby', Bool.not_false, if_true]
    by_cases hsg : c.is_streaming = true ∧ c.capture_state = CaptureState.good
    · rw [if_pos hsg]
      exact tail _ (step1 _ (capture_done_inv env _ h))
    · rw [if_neg hsg]
      exact tail _ (step1 _ h)

/-- The ring-buffer states reachable through the driver's own call
discipline: `tegra_channel_start_streaming` initializes the ring (after
setting the capture state to IDLE and the sequence counter to 0); the
buffer-queue adapter appends submissions; the capture kthread runs
dequeue-and-capture iterations; the stop path runs
`tegra_channel_capture_done` and the full `tegra_channel_stop_streaming`
sequence. -/
inductive ReachableRing : Chan → Prop where
  | start (c : Chan) :
      ReachableRing { tegra_channel_init_ring_buffer c with
        capture_state := CaptureState.idle, sequence := 0 }
  | submit (c : Chan) (vb : Nat) : ReachableRing c →
      ReachableRing { c with capture := c.capture ++ [vb] }
  | frame (env : Env) (c : Chan) : ReachableRing c →
      ReachableRing (kthread_it env c).2.1
  | lastFrame (env : Env) (c : Chan) : ReachableRing c →
      ReachableRing (tegra_channel_capture_done env c).1
  | stop (env : Env) (vi : Vi) (c : Chan) : ReachableRing c →
      ReachableRing (tegra_channel_stop_streaming env c vi).1

theorem reachable_ring_inv (c : Chan) (h : ReachableRing c) : RingInv c := by
  induction h with
  | start c =>
    exact ⟨by simp [tegra_channel_init_ring_buffer, QUEUED_BUFFERS],
      by simp [tegra_channel_init_ring_buffer, QUEUED_BUFFERS],
      by simp [tegra_channel_init_ring_buffer, QUEUED_BUFFERS]⟩
  | submit c vb _ ih => exact ih
  | frame env c _ ih => exact kthread_it_inv env c ih
  | lastFrame env c _ ih => exact capture_done_inv env c ih
  | stop env vi c _ ih => exact stop_streaming_inv env c vi ih

theorem free_one_event (c : Chan) :
    (free_ring_buffers c 1).2 = [(free_ring_buffers_body c).2] := rfl

theorem free_body_event_shape (c : Chan) :
    ∃ stt, (free_ring_buffers_body c).2 =
      Ev.bufDone (c.buffers c.free_index) stt := ⟨_, rfl⟩

/-- C4: in every ring-buffer state reachable through the driver's own
operations starting from `tegra_channel_init_ring_buffer`, `num_buffers`
never exceeds `QUEUED_BUFFERS` (4); and whenever a frame-start
acknowledgement (`tegra_channel_ring_buffer` in GOOD state past the first
frame) finds `QUEUED_BUFFERS - 1` or more outstanding entries, it releases
exactly the oldest one (the buffer at `free_index`) and decrements
`num_buffers`, before any further buffer can be accumulated. -/
theorem claim_c4_ring_capacity :
    (∀ c : Chan, ReachableRing c → c.num_buffers ≤ QUEUED_BUFFERS) ∧
    (∀ (c : Chan) (vb : Nat) (st : Vb2BufState),
      c.capture_state = CaptureState.good → c.bfirst_fstart = true →
      QUEUED_BUFFERS - 1 ≤ c.num_buffers → c.num_buffers < U32LIM →
      (∃ stt, (tegra_channel_ring_buffer c vb st).2 =
        [Ev.bufDone (c.buffers c.free_index) stt]) ∧
      (tegra_channel_ring_buffer c vb st).1.num_buffers =
        c.num_buffers - 1) := by
  constructor
  · intro c h
    have hi := reachable_ring_inv c h
    obtain ⟨hn, -, -⟩ := hi
    simp only [QUEUED_BUFFERS] at *
    omega
  · intro c vb st hg hb hn hlim
    simp only [tegra_channel_ring_buffer, hb, Bool.not_true,
      Bool.false_eq_true, if_false]
    rw [if_neg (show ¬ (update_state_to_buffer c st).capture_state ≠
      CaptureState.good by rw [update_state_to_buffer_capture_state, hg]; simp)]
    rw [if_pos (show QUEUED_BUFFERS - 1 ≤
      (update_state_to_buffer c st).num_buffers by
        rw [update_state_to_buffer_num]; exact hn)]
    constructor
    · obtain ⟨stt, hstt⟩ := free_body_event_shape (update_state_to_buffer c st)
      refine ⟨stt, ?_⟩
      rw [free_one_event, hstt, update_state_to_buffer_buffers,
        update_state_to_buffer_free_index]
    · rw [free_ring_buffers_num _ 1 (by
          rw [update_state_to_buffer_num]
          simp only [QUEUED_BUFFERS] at hn
          omega)
        (by rw [update_state_to_buffer_num]; exact hlim),
        update_state_to_buffer_num]

/-- A full ring (3 outstanding entries) in GOOD state, used as C4 witness. -/
def c4_chan : Chan :=
  { streamChan with
    buffers := (fun i => 10 + i), num_buffers := 3,
    save_index := 3, free_index := 0, released_bufs := 2, capture := [] }

theorem claim_c4_ring_capacity_witness :
    ({ tegra_channel_init_ring_buffer streamChan with
        capture_state := CaptureState.idle,
        sequence := 0 }.num_buffers ≤ QUEUED_BUFFERS) ∧
    ((∃ stt, (tegra_channel_ring_buffer c4_chan 99 Vb2BufState.done).2 =
        [Ev.bufDone (c4_chan.buffers c4_chan.free_index) stt]) ∧
      (tegra_channel_ring_buffer c4_chan 99 Vb2BufState.done).1.num_buffers =
        c4_chan.num_buffers - 1) :=
  ⟨claim_c4_ring_capacity.1 _ (ReachableRing.start streamChan),
   claim_c4_ring_capacity.2 c4_chan 99 Vb2BufState.done rfl rfl (by decide)
     (by decide)⟩

/-! ## Claim C6: stop_streaming on an already-stopped channel -/

/-- An already-stopped non-bypass channel: not streaming, no capture
kthread, empty ring and submission queue, with the bandwidth-request fields
at their probe-time zero values. -/
def c6_chan : Chan :=
  { streamChan with
    capture := [], is_streaming := false, kthread_capture_start := false }

/-- The VI aggregate for the C6 scenario. -/
def c6_vi : Vi := { aggregated_kbyteps := 0 }

/-- C6 counterexample: `tegra_channel_stop_streaming` on an already-stopped
channel (not streaming, no kthread, empty ring and queue) is NOT a no-op on
channel state: it unconditionally recomputes the bandwidth-request field
`requested_kbyteps` through `tegra_channel_update_clknbw`, here changing it
from 0 to -(1280*720*30*2/1000). -/
theorem claim_c6_counterexample :
    c6_chan.is_streaming = false ∧ c6_chan.kthread_capture_start = false ∧
    c6_chan.num_buffers = 0 ∧ c6_chan.capture = [] ∧
    (tegra_channel_stop_streaming envTimeout c6_chan c6_vi).1.requested_kbyteps
      ≠ c6_chan.requested_kbyteps := by
  refine ⟨rfl, rfl, rfl, rfl, ?_⟩
  intro h
  exact absurd (h.symm.trans rfl) (by decide)

/-- `tegra_channel_set_stream` with the stream already off is a no-op. -/
theorem set_stream_off_noop (env : Env) (c : Chan)
    (h : c.is_streaming = false) :
    tegra_channel_set_stream env c false = (0, c) := by
  simp [tegra_channel_set_stream, h]

/-- C6 amended: stop_streaming on an already-stopped non-bypass channel
leaves `capture_state` (and all ring/queue bookkeeping and the buffer-state
array) unchanged and completes no buffer, but it always recomputes the
bandwidth-request fields (`requested_kbyteps` becomes the negated format
bandwidth, `requested_hz` becomes 0) and subtracts that bandwidth from the
VI aggregate again, so it is not a complete no-op on channel state. -/
theorem claim_c6_amended (env : Env) (c : Chan) (vi : Vi)
    (hstr : c.is_streaming = false)
    (hn : c.num_buffers = 0)
    (hq : c.capture = [])
    (hby : c.bypass = false) :
    (tegra_channel_stop_streaming env c vi).1.capture_state =
      c.capture_state ∧
    (tegra_channel_stop_streaming env c vi).1.num_buffers = 0 ∧
    (tegra_channel_stop_streaming env c vi).1.save_index = c.save_index ∧
    (tegra_channel_stop_streaming env c vi).1.free_index = c.free_index ∧
    (tegra_channel_stop_streaming env c vi).1.buffer_state = c.buffer_state ∧
    (tegra_channel_stop_streaming env c vi).1.is_streaming = false ∧
    (tegra_channel_stop_streaming env c vi).2.2 = [] ∧
    (tegra_channel_stop_streaming env c vi).1.requested_kbyteps =
      -(((c.format_width * c.format_height * FRAMERATE * BPP_MEM) / 1000 :
        Nat) : Int) ∧
    (tegra_channel_stop_streaming env c vi).1.requested_hz = 0 ∧
    (tegra_channel_stop_streaming env c vi).2.1.aggregated_kbyteps =
      vi.aggregated_kbyteps -
      (((c.format_width * c.format_height * FRAMERATE * BPP_MEM) / 1000 :
        Nat) : Int) := by
  simp only [tegra_channel_stop_streaming, hby, hn, hq, hstr,
    Bool.not_false, Bool.not_true, if_true, Bool.false_eq_true, false_and,
    if_false, free_ring_buffers, tegra_channel_queued_buf_done, List.map_nil,
    set_stream_off_noop, ite_self, tegra_channel_update_clknbw,
    List.append_nil, List.nil_append]
  refine ⟨trivial, trivial, trivial, trivial, trivial, trivial, trivial,
    by simp, trivial, by simp; try ring⟩

/-- Witness for C6 amended at the concrete already-stopped channel. -/
theorem claim_c6_amended_witness :
    (tegra_channel_stop_streaming envTimeout c6_chan c6_vi).1.capture_state =
      c6_chan.capture_state ∧
    (tegra_channel_stop_streaming envTimeout c6_chan c6_vi).1.num_buffers =
      0 ∧
    (tegra_channel_stop_streaming envTimeout c6_chan c6_vi).1.save_index =
      c6_chan.save_index ∧
    (tegra_channel_stop_streaming envTimeout c6_chan c6_vi).1.free_index =
      c6_chan.free_index ∧
    (tegra_channel_stop_streaming envTimeout c6_chan c6_vi).1.buffer_state =
      c6_chan.buffer_state ∧
    (tegra_channel_stop_streaming envTimeout c6_chan c6_vi).1.is_streaming =
      false ∧
    (tegra_channel_stop_streaming envTimeout c6_chan c6_vi).2.2 = [] ∧
    (tegra_channel_stop_streaming envTimeout c6_chan c6_vi).1.requested_kbyteps
      = -(((c6_chan.format_width * c6_chan.format_height * FRAMERATE *
        BPP_MEM) / 1000 : Nat) : Int) ∧
    (tegra_channel_stop_streaming envTimeout c6_chan c6_vi).1.requested_hz =
      0 ∧
    (tegra_channel_stop_streaming envTimeout c6_chan c6_vi).2.1.aggregated_kbyteps
      = c6_vi.aggregated_kbyteps -
      (((c6_chan.format_width * c6_chan.format_height * FRAMERATE *
        BPP_MEM) / 1000 : Nat) : Int) :=
  claim_c6_amended envTimeout c6_chan c6_vi rfl rfl rfl rfl

/-! ## The fault-free capture run (claims C1, C5, C10) -/

/-- Hardware oracle of a fault-free run: every sync-point wait completes in
time, every error-status read is zero, no TPG, no subdevice failure. -/
def happyEnv : Env :=
  { pg_mode := false, wait_err := fun _ => false,
    done_wait_err := fun _ => false, vi_err_read := fun _ => 0,
    csi_err := fun _ => 0, fifo_backlog := fun _ => false,
    set_stream_err := false }

/-- The channel state right after `tegra_channel_start_streaming` on a
single-port non-bypass channel with buffers 1..N already submitted. -/
def startChan (N : Nat) : Chan :=
  { streamChan with
    bfirst_fstart := false, capture_state := CaptureState.idle,
    is_streaming := false, capture := List.range' 1 N }

theorem range'_eq_cons (s n : Nat) (h : 1 ≤ n) :
    List.range' s n = s :: List.range' (s + 1) (n - 1) := by
  cases n with
  | zero => omega
  | succ m => rfl

/-- An idle kthread iteration: empty submission queue. -/
theorem loop_nil (env : Env) (fuel : Nat) (c : Chan) (hq : c.capture = []) :
    kthread_capture_loop env fuel 0 c = (c, []) := by
  cases fuel with
  | zero => rfl
  | succ f => simp [kthread_capture_loop, dequeue_buffer, hq]

/-- One unfolding of the kthread loop on a non-empty queue. -/
theorem loop_cons (env : Env) (f : Nat) (c : Chan) (vb : Nat)
    (rest : List Nat) (hq : c.capture = vb :: rest) :
    kthread_capture_loop env (f + 1) 0 c =
      ((kthread_capture_loop env f
          (tegra_channel_capture_frame env
            (add_buffer_to_ring { c with capture := rest } vb) vb).1
          (tegra_channel_capture_frame env
            (add_buffer_to_ring { c with capture := rest } vb) vb).2.1).1,
       (tegra_channel_capture_frame env
          (add_buffer_to_ring { c with capture := rest } vb) vb).2.2 ++
       (kthread_capture_loop env f
          (tegra_channel_capture_frame env
            (add_buffer_to_ring { c with capture := rest } vb) vb).1
          (tegra_channel_capture_frame env
            (add_buffer_to_ring { c with capture := rest } vb) vb).2.1).2) := by
  simp [kthread_capture_loop, dequeue_buffer, hq]

/-- Mid-stream fault-free frame: `tegra_channel_capture_frame` reduces to
the frame-start bookkeeping with a DONE confirmation. -/
theorem capture_frame_good (env : Env) (c : Chan) (vb : Nat)
    (hb : c.bfirst_fstart = true)
    (hpg : env.pg_mode = false)
    (hw : ∀ i, i < c.valid_ports → env.wait_err i = false)
    (hstat : tegra_channel_error_status env c = 0) :
    tegra_channel_capture_frame env c vb =
      (0, tegra_channel_ring_buffer
        { c with
          syncpoint_fifo := fun i =>
            if i < c.valid_ports ∧ c.syncpoint_fifo i ≠ 0 then
              u32dec (c.syncpoint_fifo i)
            else c.syncpoint_fifo i,
          capture_state := CaptureState.good } vb Vb2BufState.done) := by
  have hfind : (List.range c.valid_ports).find? env.wait_err = none := by
    rw [List.find?_eq_none]
    intro i hi
    simp [hw i (List.mem_range.mp hi)]
  simp only [tegra_channel_capture_frame, hb, Bool.not_true,
    Bool.false_eq_true, if_false]
  rw [if_neg (show ¬((0 : Int) ≠ 0) by simp)]
  simp only [hfind, hpg, Bool.not_false, true_and]
  simp only [tegra_channel_error_status] at hstat ⊢
  rw [if_neg (by simp [hstat])]

/-- First fault-free frame: the streaming-enable sequence succeeds, setting
the atomic streaming flag before the frame-start bookkeeping. -/
theorem capture_frame_good_first (env : Env) (c : Chan) (vb : Nat)
    (hb : c.bfirst_fstart = false)
    (hpg : env.pg_mode = false)
    (hstr : c.is_streaming = false)
    (herr : env.set_stream_err = false)
    (hw : ∀ i, i < c.valid_ports → env.wait_err i = false)
    (hstat : tegra_channel_error_status env c = 0) :
    tegra_channel_capture_frame env c vb =
      (0, tegra_channel_ring_buffer
        { c with
          syncpoint_fifo := fun i =>
            if i < c.valid_ports ∧ c.syncpoint_fifo i ≠ 0 then
              u32dec (c.syncpoint_fifo i)
            else c.syncpoint_fifo i,
          is_streaming := true,
          capture_state := CaptureState.good } vb Vb2BufState.done) := by
  have hfind : (List.range c.valid_ports).find? env.wait_err = none := by
    rw [List.find?_eq_none]
    intro i hi
    simp [hw i (List.mem_range.mp hi)]
  simp only [tegra_channel_capture_frame, hb, Bool.not_false, if_true,
    tegra_channel_enable_stream, tegra_channel_set_stream, hpg,
    Bool.false_eq_true, if_false, hstr, herr]
  rw [if_neg (show ¬((0 : Int) < 0) by simp)]
  rw [if_neg (show ¬((0 : Int) ≠ 0) by simp)]
  simp only [hfind, hpg, Bool.not_false, true_and]
  simp only [tegra_channel_error_status] at hstat ⊢
  rw [if_neg (by simp [hstat])]

/-- In a GOOD capture state, `update_state_to_buffer` writes exactly the
slot two positions behind `save_index` (modulo the capacity). -/
theorem update_state_good (c : Chan) (st : Vb2BufState)
    (hg : c.capture_state = CaptureState.good)
    (hs : c.save_index < QUEUED_BUFFERS) :
    update_state_to_buffer c st =
      { c with buffer_state := fun i =>
          if i = (c.save_index + 2) % QUEUED_BUFFERS then st
          else c.buffer_state i } := by
  simp only [update_state_to_buffer]
  rw [if_neg (by simp [hg])]
  have hidx : (if ((c.save_index : Int) - PREVIOUS_BUFFER_DEC_INDEX) < 0 then
      ((c.save_index : Int) - PREVIOUS_BUFFER_DEC_INDEX) + (QUEUED_BUFFERS : Int)
      else ((c.save_index : Int) - PREVIOUS_BUFFER_DEC_INDEX)).toNat =
      (c.save_index + 2) % QUEUED_BUFFERS := by
    simp only [PREVIOUS_BUFFER_DEC_INDEX, QUEUED_BUFFERS] at *
    split <;> omega
  rw [hidx]

/-- `tegra_channel_ring_buffer` on the very first frame: only sets
`bfirst_fstart`. -/
theorem ring_buffer_first (c : Chan) (vb : Nat) (st : Vb2BufState)
    (hb : c.bfirst_fstart = false)
    (hg : c.capture_state = CaptureState.good)
    (hn : ¬ QUEUED_BUFFERS - 1 ≤ c.num_buffers) :
    tegra_channel_ring_buffer c vb st = ({ c with bfirst_fstart := true }, []) := by
  simp only [tegra_channel_ring_buffer, hb, Bool.not_false, if_true]
  rw [if_neg (by simp [hg]), if_neg hn]

/-- Mid-stream GOOD frame with fewer than `QUEUED_BUFFERS - 1` outstanding
entries: only the previous slot's state is confirmed. -/
theorem ring_buffer_upd_small (c : Chan) (vb : Nat) (st : Vb2BufState)
    (hb : c.bfirst_fstart = true)
    (hg : c.capture_state = CaptureState.good)
    (hn : ¬ QUEUED_BUFFERS - 1 ≤ c.num_buffers) :
    tegra_channel_ring_buffer c vb st = (update_state_to_buffer c st, []) := by
  simp only [tegra_channel_ring_buffer, hb, Bool.not_true, Bool.false_eq_true,
    if_false]
  rw [if_neg (by rw [update_state_to_buffer_capture_state]; simp [hg]),
    if_neg (by rw [update_state_to_buffer_num]; exact hn)]

/-- Mid-stream GOOD frame at `QUEUED_BUFFERS - 1` outstanding entries: the
previous slot is confirmed and the oldest buffer is released. -/
theorem ring_buffer_upd_free (c : Chan) (vb : Nat) (st : Vb2BufState)
    (hb : c.bfirst_fstart = true)
    (hg : c.capture_state = CaptureState.good)
    (hn : QUEUED_BUFFERS - 1 ≤ c.num_buffers) :
    tegra_channel_ring_buffer c vb st =
      free_ring_buffers (update_state_to_buffer c st) 1 := by
  simp only [tegra_channel_ring_buffer, hb, Bool.not_true, Bool.false_eq_true,
    if_false]
  rw [if_neg (by rw [update_state_to_buffer_capture_state]; simp [hg]),
    if_pos (by rw [update_state_to_buffer_num]; exact hn)]

/-- State of the fault-free single-port run after `k ≥ 2` frames: steady
state with two outstanding buffers `k-1` (confirmed DONE) and `k`
(unconfirmed, still ERROR), both ring indices advanced modulo the
capacity, and `k - 2` buffers already released. -/
def happyP (N k : Nat) (c : Chan) : Prop :=
  c.capture_state = CaptureState.good ∧ c.bfirst_fstart = true ∧
  c.num_buffers = 2 ∧ c.save_index = k % 4 ∧ c.free_index = (k + 2) % 4 ∧
  c.released_bufs = k - 2 ∧ c.capture = List.range' (k + 1) (N - k) ∧
  c.buffers ((k + 2) % 4) = k - 1 ∧ c.buffers ((k + 3) % 4) = k ∧
  c.buffer_state ((k + 2) % 4) = Vb2BufState.done ∧
  c.buffer_state ((k + 3) % 4) = Vb2BufState.error ∧
  c.valid_ports = 1 ∧ c.is_streaming = true ∧ c.bypass = false

/-- State of the fault-free run after the first frame. -/
def happyP1 (N : Nat) (c : Chan) : Prop :=
  c.capture_state = CaptureState.good ∧ c.bfirst_fstart = true ∧
  c.num_buffers = 1 ∧ c.save_index = 1 ∧ c.free_index = 0 ∧
  c.released_bufs = 0 ∧ c.capture = List.range' 2 (N - 1) ∧
  c.buffers 0 = 1 ∧ c.buffer_state 0 = Vb2BufState.error ∧
  c.valid_ports = 1 ∧ c.is_streaming = true ∧ c.bypass = false

@[simp] theorem free_body_num (c : Chan) :
    (free_ring_buffers_body c).1.num_buffers = u32dec c.num_buffers := rfl

@[simp] theorem free_body_released (c : Chan) :
    (free_ring_buffers_body c).1.released_bufs =
      (c.released_bufs + 1) % U32LIM := rfl

@[simp] theorem free_body_valid_ports (c : Chan) :
    (free_ring_buffers_body c).1.valid_ports = c.valid_ports := rfl

@[simp] theorem free_body_is_streaming (c : Chan) :
    (free_ring_buffers_body c).1.is_streaming = c.is_streaming := rfl

@[simp] theorem free_body_bypass (c : Chan) :
    (free_ring_buffers_body c).1.bypass = c.bypass := rfl

@[simp] theorem free_body_bfirst (c : Chan) :
    (free_ring_buffers_body c).1.bfirst_fstart = c.bfirst_fstart := rfl

theorem free_body_bstate_ne (c : Chan) (i : Nat) (hne : i ≠ c.free_index) :
    (free_ring_buffers_body c).1.buffer_state i = c.buffer_state i := by
  simp only [free_ring_buffers_body]
  split <;> simp [hne]

theorem free_body_event (c : Chan) :
    (free_ring_buffers_body c).2 =
      Ev.bufDone (c.buffers c.free_index)
        (if c.capture_state ≠ CaptureState.good ∨ c.released_bufs < 2 then
          Vb2BufState.error
        else c.buffer_state c.free_index) := by
  simp only [free_ring_buffers_body]
  split <;> simp

theorem free_one (c : Chan) :
    free_ring_buffers c 1 =
      ((free_ring_buffers_body c).1, [(free_ring_buffers_body c).2]) := rfl

/-- The fault-free steady-state frame step: from `happyP N k` (two
outstanding buffers), processing buffer `k+1` confirms buffer `k`'s slot as
DONE and releases buffer `k-1`, forced to ERROR exactly while fewer than two
buffers have been released (the WAR), yielding `happyP N (k+1)`. -/
theorem happy_frame (N k : Nat) (c : Chan) (h2 : 2 ≤ k) (hkN : k < N)
    (hN : N < 2 ^ 32) (hp : happyP N k c) :
    (tegra_channel_capture_frame happyEnv
      (add_buffer_to_ring { c with capture := List.range' (k + 2) (N - (k + 1)) }
        (k + 1)) (k + 1)).1 = 0 ∧
    happyP N (k + 1) (tegra_channel_capture_frame happyEnv
      (add_buffer_to_ring { c with capture := List.range' (k + 2) (N - (k + 1)) }
        (k + 1)) (k + 1)).2.1 ∧
    (tegra_channel_capture_frame happyEnv
      (add_buffer_to_ring { c with capture := List.range' (k + 2) (N - (k + 1)) }
        (k + 1)) (k + 1)).2.2 =
      [Ev.bufDone (k - 1)
        (if k + 1 ≤ 4 then Vb2BufState.error else Vb2BufState.done)] := by
  obtain ⟨hg, hb, hnum, hsave, hfree, hrel, hcap, hbuf2, hbuf3, hbs2, hbs3,
    hvp, hstr, hby⟩ := hp
  set c1 : Chan := add_buffer_to_ring
    { c with capture := List.range' (k + 2) (N - (k + 1)) } (k + 1) with hc1
  have hb1 : c1.bfirst_fstart = true := hb
  have hv1 : c1.valid_ports = 1 := hvp
  have hc1save : c1.save_index = (k + 1) % 4 := by
    rw [show c1.save_index =
      (if QUEUED_BUFFERS ≤ c.save_index + 1 then 0 else c.save_index + 1)
      from rfl, hsave]
    simp only [QUEUED_BUFFERS]
    split <;> omega
  have hc1num : c1.num_buffers = 3 := by
    rw [show c1.num_buffers = (c.num_buffers + 1) % U32LIM from rfl, hnum]
    decide
  have hstat0 : tegra_channel_error_status happyEnv c1 = 0 := by
    simp only [tegra_channel_error_status]
    rw [hv1]
    rfl
  rw [capture_frame_good happyEnv c1 (k + 1) hb1 rfl (fun i _ => rfl) hstat0]
  set c2 : Chan := { c1 with
    syncpoint_fifo := fun i =>
      if i < c1.valid_ports ∧ c1.syncpoint_fifo i ≠ 0 then
        u32dec (c1.syncpoint_fifo i)
      else c1.syncpoint_fifo i,
    capture_state := CaptureState.good } with hc2
  have hb2 : c2.bfirst_fstart = true := hb
  have hn2 : QUEUED_BUFFERS - 1 ≤ c2.num_buffers := by
    rw [show c2.num_buffers = c1.num_buffers from rfl, hc1num]
    decide
  rw [ring_buffer_upd_free c2 (k + 1) Vb2BufState.done hb2 rfl hn2]
  rw [update_state_good c2 Vb2BufState.done rfl
    (by rw [show c2.save_index = c1.save_index from rfl, hc1save]
        simp only [QUEUED_BUFFERS]
        omega)]
  set c3 : Chan := { c2 with
    buffer_state := fun i =>
      if i = (c2.save_index + 2) % QUEUED_BUFFERS then Vb2BufState.done
      else c2.buffer_state i } with hc3
  rw [free_one]
  have hc3free : c3.free_index = (k + 2) % 4 := hfree
  have hc3num : c3.num_buffers = 3 := hc1num
  have hc3rel : c3.released_bufs = k - 2 := hrel
  have hc3bufs : ∀ i, c3.buffers i =
      if i = k % 4 then k + 1 else c.buffers i := by
    intro i
    rw [show c3.buffers i =
      (if i = c.save_index then k + 1 else c.buffers i) from rfl, hsave]
  have hc3bs : ∀ i, c3.buffer_state i =
      if i = (k + 3) % 4 then Vb2BufState.done
      else if i = k % 4 then Vb2BufState.error
      else c.buffer_state i := by
    intro i
    rw [show c3.buffer_state i =
      (if i = (c1.save_index + 2) % QUEUED_BUFFERS then Vb2BufState.done
       else if i = c.save_index then Vb2BufState.error else c.buffer_state i)
      from rfl, hc1save, hsave,
      show ((k + 1) % 4 + 2) % QUEUED_BUFFERS = (k + 3) % 4 from by
        simp only [QUEUED_BUFFERS]; omega]
  refine ⟨rfl, ?_, ?_⟩
  · -- happyP N (k+1) of the post-release state
    refine ⟨rfl, hb, ?_, ?_, ?_, ?_, rfl, ?_, ?_, ?_, ?_, hvp, hstr, hby⟩
    · rw [free_body_num, hc3num]
      decide
    · rw [free_body_save_index]
      exact hc1save
    · rw [free_body_free_index, hc3free]
      simp only [QUEUED_BUFFERS]
      split <;> omega
    · rw [free_body_released, hc3rel]
      simp only [U32LIM]
      omega
    · rw [free_body_buffers, hc3bufs, if_neg (by omega),
        show (k + 1 + 2) % 4 = (k + 3) % 4 from by omega, hbuf3]
      omega
    · rw [free_body_buffers, hc3bufs, if_pos (by omega)]
    · rw [free_body_bstate_ne c3 ((k + 1 + 2) % 4) (by rw [hc3free]; omega),
        hc3bs, if_pos (by omega)]
    · rw [free_body_bstate_ne c3 ((k + 1 + 3) % 4) (by rw [hc3free]; omega),
        hc3bs, if_neg (by omega), if_pos (by omega)]
  · rw [free_body_event, hc3free, hc3bufs, if_neg (by omega), hbuf2,
      show c3.capture_state = CaptureState.good from rfl, hc3rel]
    rcases Nat.lt_or_ge k 4 with h4 | h4
    · rw [if_pos (Or.inr (by omega)), if_pos (by omega)]
    · rw [if_neg (by push_neg; exact ⟨rfl, by omega⟩), if_neg (by omega),
        hc3bs, if_neg (by omega), if_neg (by omega), hbs2]

/-- The first fault-free frame: buffer 1 is slotted, the stream is enabled
and only `bfirst_fstart` flips; nothing completes yet. -/
theorem happy_frame1 (N : Nat) :
    (tegra_channel_capture_frame happyEnv
      (add_buffer_to_ring { startChan N with capture := List.range' 2 (N - 1) }
        1) 1).1 = 0 ∧
    happyP1 N (tegra_channel_capture_frame happyEnv
      (add_buffer_to_ring { startChan N with capture := List.range' 2 (N - 1) }
        1) 1).2.1 ∧
    (tegra_channel_capture_frame happyEnv
      (add_buffer_to_ring { startChan N with capture := List.range' 2 (N - 1) }
        1) 1).2.2 = [] := by
  set c1 : Chan := add_buffer_to_ring
    { startChan N with capture := List.range' 2 (N - 1) } 1 with hc1
  rw [capture_frame_good_first happyEnv c1 1 rfl rfl rfl rfl (fun i _ => rfl)
    rfl]
  set c2 : Chan := { c1 with
    syncpoint_fifo := fun i =>
      if i < c1.valid_ports ∧ c1.syncpoint_fifo i ≠ 0 then
        u32dec (c1.syncpoint_fifo i)
      else c1.syncpoint_fifo i,
    is_streaming := true,
    capture_state := CaptureState.good } with hc2
  rw [ring_buffer_first c2 1 Vb2BufState.done rfl rfl
    (by rw [show c2.num_buffers = (0 + 1) % U32LIM from rfl]; decide)]
  exact ⟨rfl, ⟨rfl, rfl, rfl, rfl, rfl, rfl, rfl, rfl, rfl, rfl, rfl, rfl⟩,
    rfl⟩

/-- The second fault-free frame: buffer 2 is slotted and buffer 1's slot is
confirmed DONE; still nothing completes (the ring is below the release
threshold). -/
theorem happy_frame2 (N : Nat) (c : Chan) (hp : happyP1 N c) :
    (tegra_channel_capture_frame happyEnv
      (add_buffer_to_ring { c with capture := List.range' 3 (N - 2) } 2)
      2).1 = 0 ∧
    happyP N 2 (tegra_channel_capture_frame happyEnv
      (add_buffer_to_ring { c with capture := List.range' 3 (N - 2) } 2)
      2).2.1 ∧
    (tegra_channel_capture_frame happyEnv
      (add_buffer_to_ring { c with capture := List.range' 3 (N - 2) } 2)
      2).2.2 = [] := by
  obtain ⟨hg, hb, hnum, hsave, hfree, hrel, hcap, hbuf0, hbs0, hvp, hstr,
    hby⟩ := hp
  set c1 : Chan := add_buffer_to_ring
    { c with capture := List.range' 3 (N - 2) } 2 with hc1
  have hb1 : c1.bfirst_fstart = true := hb
  have hv1 : c1.valid_ports = 1 := hvp
  have hc1save : c1.save_index = 2 := by
    rw [show c1.save_index =
      (if QUEUED_BUFFERS ≤ c.save_index + 1 then 0 else c.save_index + 1)
      from rfl, hsave]
    decide
  have hc1num : c1.num_buffers = 2 := by
    rw [show c1.num_buffers = (c.num_buffers + 1) % U32LIM from rfl, hnum]
    decide
  have hstat0 : tegra_channel_error_status happyEnv c1 = 0 := by
    simp only [tegra_channel_error_status]
    rw [hv1]
    rfl
  rw [capture_frame_good happyEnv c1 2 hb1 rfl (fun i _ => rfl) hstat0]
  set c2 : Chan := { c1 with
    syncpoint_fifo := fun i =>
      if i < c1.valid_ports ∧ c1.syncpoint_fifo i ≠ 0 then
        u32dec (c1.syncpoint_fifo i)
      else c1.syncpoint_fifo i,
    capture_state := CaptureState.good } with hc2
  have hb2 : c2.bfirst_fstart = true := hb
  have hn2 : ¬ QUEUED_BUFFERS - 1 ≤ c2.num_buffers := by
    rw [show c2.num_buffers = c1.num_buffers from rfl, hc1num]
    decide
  rw [ring_buffer_upd_small c2 2 Vb2BufState.done hb2 rfl hn2]
  rw [update_state_good c2 Vb2BufState.done rfl
    (by rw [show c2.save_index = c1.save_index from rfl, hc1save]; decide)]
  refine ⟨rfl, ?_, rfl⟩
  refine ⟨rfl, hb, hc1num, ?_, hfree, hrel, rfl, ?_, ?_, ?_, ?_, hvp, hstr,
    hby⟩
  · exact hc1save
  · rw [show ({ c2 with buffer_state := fun i =>
        if i = (c2.save_index + 2) % QUEUED_BUFFERS then Vb2BufState.done
        else c2.buffer_state i } : Chan).buffers ((2 + 2) % 4) =
      (if (2 + 2) % 4 = c.save_index then 2 else c.buffers ((2 + 2) % 4))
      from rfl, hsave, if_neg (by decide),
      show (2 + 2) % 4 = 0 from rfl]
    exact hbuf0
  · rw [show ({ c2 with buffer_state := fun i =>
        if i = (c2.save_index + 2) % QUEUED_BUFFERS then Vb2BufState.done
        else c2.buffer_state i } : Chan).buffers ((2 + 3) % 4) =
      (if (2 + 3) % 4 = c.save_index then 2 else c.buffers ((2 + 3) % 4))
      from rfl, hsave, if_pos (by decide)]
  · rw [show ({ c2 with buffer_state := fun i =>
        if i = (c2.save_index + 2) % QUEUED_BUFFERS then Vb2BufState.done
        else c2.buffer_state i } : Chan).buffer_state ((2 + 2) % 4) =
      (if (2 + 2) % 4 = (c1.save_index + 2) % QUEUED_BUFFERS then
        Vb2BufState.done
       else if (2 + 2) % 4 = c.save_index then Vb2BufState.error
       else c.buffer_state ((2 + 2) % 4)) from rfl, hc1save,
      if_pos (by decide)]
  · rw [show ({ c2 with buffer_state := fun i =>
        if i = (c2.save_index + 2) % QUEUED_BUFFERS then Vb2BufState.done
        else c2.buffer_state i } : Chan).buffer_state ((2 + 3) % 4) =
      (if (2 + 3) % 4 = (c1.save_index + 2) % QUEUED_BUFFERS then
        Vb2BufState.done
       else if (2 + 3) % 4 = c.save_index then Vb2BufState.error
       else c.buffer_state ((2 + 3) % 4)) from rfl, hc1save, hsave,
      if_neg (by decide), if_pos (by decide)]

/-- Steady-state induction over the kthread loop: starting from `happyP N k`
with `f` more buffers to capture, the loop completes buffers `k-1, k, ...`
in FIFO order, DONE except for the WAR-forced first two. -/
theorem happy_loop (N : Nat) (hN : N < 2 ^ 32) (f : Nat) :
    ∀ (k : Nat) (c : Chan), 2 ≤ k → k + f ≤ N → happyP N k c →
      happyP N (k + f) (kthread_capture_loop happyEnv f 0 c).1 ∧
      (kthread_capture_loop happyEnv f 0 c).2 =
        (List.range' (k - 1) f).map (fun i =>
          Ev.bufDone i
            (if i ≤ 2 then Vb2BufState.error else Vb2BufState.done)) := by
  induction f with
  | zero =>
    intro k c _ _ hp
    exact ⟨hp, rfl⟩
  | succ f ih =>
    intro k c hk hkf hp
    have hq : c.capture = (k + 1) :: List.range' (k + 2) (N - (k + 1)) := by
      rw [hp.2.2.2.2.2.2.1, range'_eq_cons (k + 1) (N - k) (by omega)]
      rfl
    rw [loop_cons happyEnv f c (k + 1) (List.range' (k + 2) (N - (k + 1))) hq]
    obtain ⟨hr0, hp', hev⟩ := happy_frame N k c hk (by omega) hN hp
    rw [hr0, hev]
    obtain ⟨hploop, hevloop⟩ := ih (k + 1) _ (by omega) (by omega) hp'
    constructor
    · rw [show k + (f + 1) = (k + 1) + f from by omega]
      exact hploop
    · rw [hevloop,
        show List.range' (k - 1) (f + 1) = (k - 1) :: List.range' k f from by
          rw [range'_eq_cons (k - 1) (f + 1) (by omega),
            show k - 1 + 1 = k from by omega]
          rfl]
      simp only [show (k + 1 ≤ 4) = (k - 1 ≤ 2) from propext (by omega)]
      rfl

/-- The full fault-free run: `N ≥ 2` buffers captured with `N` loop
iterations, reaching steady state `happyP N N` and completing the first
`N - 2` buffers (the first two forced ERROR). -/
theorem happy_run (N : Nat) (h2 : 2 ≤ N) (hN : N < 2 ^ 32) :
    happyP N N (kthread_capture_loop happyEnv N 0 (startChan N)).1 ∧
    (kthread_capture_loop happyEnv N 0 (startChan N)).2 =
      (List.range' 1 (N - 2)).map (fun i =>
        Ev.bufDone i
          (if i ≤ 2 then Vb2BufState.error else Vb2BufState.done)) := by
  obtain ⟨m, rfl⟩ : ∃ m, N = m + 2 := ⟨N - 2, by omega⟩
  have hq1 : (startChan (m + 2)).capture =
      1 :: List.range' 2 (m + 2 - 1) := by
    rw [show (startChan (m + 2)).capture = List.range' 1 (m + 2) from rfl,
      range'_eq_cons 1 (m + 2) (by omega)]
  rw [show kthread_capture_loop happyEnv (m + 2) 0 (startChan (m + 2)) =
    kthread_capture_loop happyEnv (m + 1 + 1) 0 (startChan (m + 2)) from rfl,
    loop_cons happyEnv (m + 1) (startChan (m + 2)) 1
      (List.range' 2 (m + 2 - 1)) hq1]
  obtain ⟨hr1, hp1, hev1⟩ := happy_frame1 (m + 2)
  rw [hr1, hev1]
  have hq2 : (tegra_channel_capture_frame happyEnv
      (add_buffer_to_ring
        { startChan (m + 2) with capture := List.range' 2 (m + 2 - 1) } 1)
      1).2.1.capture = 2 :: List.range' 3 (m + 2 - 2) := by
    rw [hp1.2.2.2.2.2.2.1, range'_eq_cons 2 (m + 2 - 1) (by omega)]
    rfl
  rw [loop_cons happyEnv m _ 2 (List.range' 3 (m + 2 - 2)) hq2]
  obtain ⟨hr2, hp2, hev2⟩ := happy_frame2 (m + 2) _ hp1
  rw [hr2, hev2]
  obtain ⟨hploop, hevloop⟩ :=
    happy_loop (m + 2) hN m 2 _ (by omega) (by omega) hp2
  constructor
  · rw [show (2 + m) = m + 2 from by omega] at hploop
    exact hploop
  · rw [hevloop]
    rfl

theorem free_two (c : Chan) :
    free_ring_buffers c 2 =
      ((free_ring_buffers_body (free_ring_buffers_body c).1).1,
       [(free_ring_buffers_body c).2,
        (free_ring_buffers_body (free_ring_buffers_body c).1).2]) := rfl

/-- A bandwidth aggregate with no other channels registered. -/
def viZero : Vi := { aggregated_kbyteps := 0 }

/-- Stopping the stream from the fault-free steady state after all `N ≥ 4`
buffers were captured: the drain releases the two outstanding buffers,
`N - 1` as DONE (its slot was confirmed at frame `N`) and `N` as ERROR (its
slot is never confirmed), and the ring count returns to zero. -/
theorem happy_stop (N : Nat) (c : Chan) (h4 : 4 ≤ N) (hN : N < 2 ^ 32)
    (hp : happyP N N c) :
    (tegra_channel_stop_streaming happyEnv c viZero).2.2 =
      [Ev.bufDone (N - 1) Vb2BufState.done, Ev.bufDone N Vb2BufState.error] ∧
    (tegra_channel_stop_streaming happyEnv c viZero).1.num_buffers = 0 := by
  obtain ⟨hg, hb, hnum, hsave, hfree, hrel, hcap, hbuf2, hbuf3, hbs2, hbs3,
    hvp, hstr, hby⟩ := hp
  have hcap0 : c.capture = [] := by
    rw [hcap, Nat.sub_self]
    rfl
  simp only [tegra_channel_stop_streaming, tegra_channel_capture_done,
    dequeue_buffer, tegra_channel_queued_buf_done, tegra_channel_set_stream,
    tegra_channel_update_clknbw, happyEnv, hby, hstr, hg, hcap0, hnum,
    Bool.not_false, Bool.true_eq_false, Bool.false_eq_true, if_true, if_false,
    eq_self_iff_true, true_and, and_true, List.map_nil, List.nil_append,
    List.append_nil, free_two, free_ring_buffers_capture, free_body_capture,
    free_body_num, free_body_is_streaming, free_body_bypass]
  set cS : Chan := { c with
    num_buffers := 2
    capture_state := CaptureState.good
    capture := []
    kthread_capture_start := false
    is_streaming := true
    bypass := false } with hcS
  constructor
  · have hfreeS : cS.free_index = (N + 2) % 4 := hfree
    have hrelS : cS.released_bufs = N - 2 := hrel
    have hev1 : (free_ring_buffers_body cS).2 =
        Ev.bufDone (N - 1) Vb2BufState.done := by
      rw [free_body_event, hfreeS,
        show cS.buffers ((N + 2) % 4) = N - 1 from hbuf2,
        show cS.capture_state = CaptureState.good from rfl, hrelS,
        if_neg (by push_neg; exact ⟨rfl, by omega⟩),
        show cS.buffer_state ((N + 2) % 4) = Vb2BufState.done from hbs2]
    set b1 : Chan := (free_ring_buffers_body cS).1 with hb1
    have hb1free : b1.free_index = (N + 3) % 4 := by
      rw [hb1, free_body_free_index, hfreeS]
      simp only [QUEUED_BUFFERS]
      split <;> omega
    have hb1rel : b1.released_bufs = N - 1 := by
      rw [hb1, free_body_released, hrelS]
      simp only [U32LIM]
      omega
    have hb1g : b1.capture_state = CaptureState.good := by
      rw [hb1, free_body_capture_state]
    have hb1buf : b1.buffers ((N + 3) % 4) = N := by
      rw [hb1, free_body_buffers]
      exact hbuf3
    have hb1bs : b1.buffer_state ((N + 3) % 4) = Vb2BufState.error := by
      rw [hb1, free_body_bstate_ne cS ((N + 3) % 4) (by rw [hfreeS]; omega)]
      exact hbs3
    have hev2 : (free_ring_buffers_body b1).2 =
        Ev.bufDone N Vb2BufState.error := by
      rw [free_body_event, hb1free, hb1buf, hb1g, hb1rel,
        if_neg (by push_neg; exact ⟨rfl, by omega⟩), hb1bs]
    rw [hev1, hev2]
  · decide

/-- The end-to-end FIFO scenario of the spec's §8 property: buffers `1..N`
submitted up front, `N` kthread iterations against fault-free hardware
(every frame-start wait succeeds, every error-status read returns 0), then
`tegra_channel_stop_streaming`; the result channel and the concatenated
`vb2_buffer_done` event list. -/
def fifo_run (N : Nat) : Chan × List Ev :=
  let r := kthread_capture_loop happyEnv N 0 (startChan N)
  let s := tegra_channel_stop_streaming happyEnv r.1 viZero
  (s.1, r.2 ++ s.2.2)

/-- C1, counterexample: in the fault-free single-buffer run the buffer is
completed with ERROR, not DONE — the claim that every buffer completes with
VB2_BUF_STATE_DONE is false (the WAR in `free_ring_buffers` forces the first
two releases after ring init to ERROR, and the last buffer's slot is never
confirmed). -/
theorem claim_c1_counterexample :
    (fifo_run 1).2 = [Ev.bufDone 1 Vb2BufState.error] ∧
    (fifo_run 1).2 ≠
      (List.range' 1 1).map (fun i => Ev.bufDone i Vb2BufState.done) := by
  decide

/-- C1, amended: in the fault-free FIFO run of `N` buffers, exactly the `N`
submitted buffers are completed, in submission order `1..N`, but with DONE
only for buffers `3..N-1`: the first two completions are WAR-forced to
ERROR and the final buffer's slot is never confirmed, so it completes as
ERROR too; `num_buffers` does return to 0 after the stop-time drain. -/
theorem claim_c1_amended (N : Nat) (hN : N < 2 ^ 32) :
    (fifo_run N).2 =
      (List.range' 1 N).map (fun i =>
        Ev.bufDone i
          (if 3 ≤ i ∧ i + 1 ≤ N then Vb2BufState.done
           else Vb2BufState.error)) ∧
    (fifo_run N).1.num_buffers = 0 := by
  rcases Nat.lt_or_ge N 4 with h4 | h4
  · interval_cases N <;> decide
  · obtain ⟨hpN, hev⟩ := happy_run N (by omega) hN
    obtain ⟨hsev, hsnum⟩ := happy_stop N _ h4 hN hpN
    simp only [fifo_run]
    constructor
    · rw [hev, hsev]
      obtain ⟨m, rfl⟩ : ∃ m, N = m + 4 := ⟨N - 4, by omega⟩
      rw [show m + 4 - 2 = m + 2 from by omega,
        show m + 4 - 1 = m + 3 from by omega]
      have happ : List.range' 1 (m + 2) ++ List.range' (m + 3) 2 =
          List.range' 1 (m + 4) := by
        have h := List.range'_append 1 (m + 2) 2 1
        simp only [one_mul] at h
        rw [show 1 + (m + 2) = m + 3 from by omega,
          show 2 + (m + 2) = m + 4 from by omega] at h
        exact h
      have hpart1 : (List.range' 1 (m + 2)).map
          (fun i => Ev.bufDone i
            (if i ≤ 2 then Vb2BufState.error else Vb2BufState.done)) =
          (List.range' 1 (m + 2)).map
          (fun i => Ev.bufDone i
            (if 3 ≤ i ∧ i + 1 ≤ m + 4 then Vb2BufState.done
             else Vb2BufState.error)) := by
        apply List.map_congr_left
        intro i hi
        rw [List.mem_range'_1] at hi
        by_cases h2 : i ≤ 2
        · simp only [if_pos h2,
            if_neg (by omega : ¬(3 ≤ i ∧ i + 1 ≤ m + 4))]
        · simp only [if_neg h2,
            if_pos (show 3 ≤ i ∧ i + 1 ≤ m + 4 from ⟨by omega, by omega⟩)]
      have hpart2 : (List.range' (m + 3) 2).map
          (fun i => Ev.bufDone i
            (if 3 ≤ i ∧ i + 1 ≤ m + 4 then Vb2BufState.done
             else Vb2BufState.error)) =
          [Ev.bufDone (m + 3) Vb2BufState.done,
           Ev.bufDone (m + 4) Vb2BufState.error] := by
        rw [show List.range' (m + 3) 2 = [m + 3, m + 3 + 1] from rfl]
        simp only [List.map_cons, List.map_nil]
        rw [if_pos (show 3 ≤ m + 3 ∧ m + 3 + 1 ≤ m + 4 from
            ⟨by omega, by omega⟩),
          if_neg (by omega : ¬(3 ≤ m + 3 + 1 ∧ m + 3 + 1 + 1 ≤ m + 4)),
          show m + 3 + 1 = m + 4 from by omega]
      rw [← happ, List.map_append, hpart1, hpart2]
    · exact hsnum

/-- Witness: the amended C1 at `N = 5` — completions `1..5` in order with
states ERROR, ERROR, DONE, DONE, ERROR and an empty ring afterwards. -/
theorem claim_c1_amended_witness :
    (5 : Nat) < 2 ^ 32 ∧
    ((fifo_run 5).2 =
      (List.range' 1 5).map (fun i =>
        Ev.bufDone i
          (if 3 ≤ i ∧ i + 1 ≤ 5 then Vb2BufState.done
           else Vb2BufState.error)) ∧
     (fifo_run 5).1.num_buffers = 0) :=
  ⟨by norm_num, claim_c1_amended 5 (by norm_num)⟩

/-- C5, counterexample: in the fault-free 5-buffer run, buffer 1 (slot 0)
already has its confirmed DONE state written at the frame-start
acknowledgement of buffer 2 — i.e. at frame N+1, with no buffer released
yet — refuting the claim that the slot is written only at buffer N+2's
frame-start acknowledgement. -/
theorem claim_c5_counterexample :
    (kthread_capture_loop happyEnv 2 0 (startChan 5)).1.buffers 0 = 1 ∧
    (kthread_capture_loop happyEnv 2 0 (startChan 5)).1.buffer_state 0 =
      Vb2BufState.done ∧
    (kthread_capture_loop happyEnv 2 0 (startChan 5)).2 = [] := by
  decide

/-- C5, amended: in the fault-free steady state after `k ≥ 2` frames, buffer
`k`'s slot still holds the unconfirmed ERROR placeholder; the frame-start
acknowledgement of buffer `k+1` (one frame later, not two) writes the
confirmed DONE state into buffer `k`'s slot, and the buffer released by that
same frame is `k-1` — i.e. a buffer is released two frame-starts after it
was added, as the claim says, but its slot is confirmed already at the next
frame-start. -/
theorem claim_c5_amended (N k : Nat) (c : Chan) (h2 : 2 ≤ k) (hkN : k < N)
    (hN : N < 2 ^ 32) (hp : happyP N k c) :
    c.buffer_state ((k + 3) % 4) = Vb2BufState.error ∧
    c.buffers ((k + 3) % 4) = k ∧
    (tegra_channel_capture_frame happyEnv
      (add_buffer_to_ring { c with capture := List.range' (k + 2) (N - (k + 1)) }
        (k + 1)) (k + 1)).2.1.buffer_state ((k + 1 + 2) % 4) =
      Vb2BufState.done ∧
    (tegra_channel_capture_frame happyEnv
      (add_buffer_to_ring { c with capture := List.range' (k + 2) (N - (k + 1)) }
        (k + 1)) (k + 1)).2.1.buffers ((k + 1 + 2) % 4) = k ∧
    (tegra_channel_capture_frame happyEnv
      (add_buffer_to_ring { c with capture := List.range' (k + 2) (N - (k + 1)) }
        (k + 1)) (k + 1)).2.2 =
      [Ev.bufDone (k - 1)
        (if k + 1 ≤ 4 then Vb2BufState.error else Vb2BufState.done)] := by
  obtain ⟨hr0, hp', hev⟩ := happy_frame N k c h2 hkN hN hp
  exact ⟨hp.2.2.2.2.2.2.2.2.2.2.1, hp.2.2.2.2.2.2.2.2.1,
    hp'.2.2.2.2.2.2.2.2.2.1, hp'.2.2.2.2.2.2.2.1, hev⟩

/-- The channel state of the fault-free 5-buffer run after 3 frames. -/
def chan53 : Chan := (kthread_capture_loop happyEnv 3 0 (startChan 5)).1

/-- Witness: the amended C5 at `N = 5`, `k = 3` on the concrete state after
3 frames — buffer 3's slot is confirmed DONE by frame 4, which releases
buffer 2 (WAR-forced to ERROR as only the second release). -/
theorem claim_c5_amended_witness :
    (2 ≤ 3 ∧ 3 < 5 ∧ (5 : Nat) < 2 ^ 32 ∧ happyP 5 3 chan53) ∧
    (chan53.buffer_state ((3 + 3) % 4) = Vb2BufState.error ∧
     chan53.buffers ((3 + 3) % 4) = 3 ∧
     (tegra_channel_capture_frame happyEnv
       (add_buffer_to_ring
         { chan53 with capture := List.range' (3 + 2) (5 - (3 + 1)) } (3 + 1))
       (3 + 1)).2.1.buffer_state ((3 + 1 + 2) % 4) = Vb2BufState.done ∧
     (tegra_channel_capture_frame happyEnv
       (add_buffer_to_ring
         { chan53 with capture := List.range' (3 + 2) (5 - (3 + 1)) } (3 + 1))
       (3 + 1)).2.1.buffers ((3 + 1 + 2) % 4) = 3 ∧
     (tegra_channel_capture_frame happyEnv
       (add_buffer_to_ring
         { chan53 with capture := List.range' (3 + 2) (5 - (3 + 1)) } (3 + 1))
       (3 + 1)).2.2 =
       [Ev.bufDone (3 - 1)
         (if 3 + 1 ≤ 4 then Vb2BufState.error else Vb2BufState.done)]) :=
  ⟨⟨by decide, by decide, by norm_num, by simp only [happyP]; decide⟩,
   claim_c5_amended 5 3 chan53 (by decide) (by decide) (by norm_num)
     (by simp only [happyP]; decide)⟩

/-- C10: in every `free_ring_buffers` release iteration, the buffer is
completed with ERROR whenever the capture state is degraded OR fewer than
two buffers have been released since ring init (the `released_bufs < 2`
WAR); consequently in the fault-free 5-buffer run, where every capture
succeeds, the first two completions are nonetheless ERROR. -/
theorem claim_c10_war (c : Chan)
    (h : c.capture_state ≠ CaptureState.good ∨ c.released_bufs < 2) :
    (free_ring_buffers_body c).2 =
      Ev.bufDone (c.buffers c.free_index) Vb2BufState.error ∧
    (kthread_capture_loop happyEnv 5 0 (startChan 5)).2.take 2 =
      [Ev.bufDone 1 Vb2BufState.error, Ev.bufDone 2 Vb2BufState.error] := by
  constructor
  · rw [free_body_event, if_pos h]
  · decide

/-- Witness: the WAR applied to a mid-stream channel in GOOD capture state
with no buffers released yet. -/
theorem claim_c10_war_witness :
    (streamChan.capture_state ≠ CaptureState.good ∨
      streamChan.released_bufs < 2) ∧
    ((free_ring_buffers_body streamChan).2 =
        Ev.bufDone (streamChan.buffers streamChan.free_index)
          Vb2BufState.error ∧
      (kthread_capture_loop happyEnv 5 0 (startChan 5)).2.take 2 =
        [Ev.bufDone 1 Vb2BufState.error, Ev.bufDone 2 Vb2BufState.error]) :=
  ⟨Or.inr (by decide), claim_c10_war streamChan (Or.inr (by decide))⟩

end TegraVi
